import Mathlib

/-!
Verification of the upload pipeline of the chatbot repository
(src/backend/go-backend/internal/api/upload.go).

The Go code is shallowly embedded below.  Floating point numbers
(float64) are idealised as exact rationals; every input appearing in
the claims uses only values on which float64 arithmetic is exact, so
the comparisons and results coincide with the Go semantics there.
Go maps are modelled as association lists; since Go map iteration
order is unspecified (and randomised by the runtime), every place the
code ranges over a map takes an explicit iteration order parameter
(a permutation of the keys).
-/

/-- Go white-space set used by strings.TrimSpace (ASCII part; the
claims only involve ASCII input). -/
def isGoSpace (c : Char) : Bool :=
  c = ' ' || c = '\t' || c = '\n' || c = '\x0b' || c = '\x0c' || c = '\r'

/-- strings.TrimSpace: remove leading and trailing white space. -/
def goTrimSpace (s : String) : String :=
  String.mk ((((s.data.dropWhile isGoSpace).reverse).dropWhile isGoSpace).reverse)

/-- strings.ToLower (ASCII part; the claims only involve ASCII input). -/
def goToLower (s : String) : String :=
  String.mk (s.data.map (fun c =>
    if 'A' ≤ c ∧ c ≤ 'Z' then Char.ofNat (c.toNat + 32) else c))

/-- strings.ToUpper (ASCII part). -/
def goToUpper (s : String) : String :=
  String.mk (s.data.map (fun c =>
    if 'a' ≤ c ∧ c ≤ 'z' then Char.ofNat (c.toNat - 32) else c))

/-- Decimal value of a digit run. -/
def digitsToNat (ds : List Char) : Nat :=
  ds.foldl (fun a c => 10 * a + (c.toNat - 48)) 0

/-- Split an optional leading sign, as strconv does. Returns
(isNegative, rest). -/
def splitSign : List Char → Bool × List Char
  | '-' :: r => (true, r)
  | '+' :: r => (false, r)
  | cs => (false, cs)

/-- strconv.Atoi: optional sign, a non-empty digit run, 64-bit range
check (Atoi is ParseInt(s, 10, 0) with int = int64). -/
def goAtoi (s : String) : Option Int :=
  let p := splitSign s.data
  if p.2 = [] then none
  else if p.2.all Char.isDigit then
    let v : Int := if p.1 then -(digitsToNat p.2 : Int) else (digitsToNat p.2 : Int)
    if v < -(2 ^ 63) ∨ (2 ^ 63 - 1 : Int) < v then none else some v
  else none

/-- strconv.ParseFloat on decimal syntax: optional sign, digits with an
optional fractional part, optional e/E exponent.  The result is the
exact rational value (float64 rounding idealised away).  The Go special
forms (Inf/NaN, hex floats, digit-separating underscores) have no
exact-rational counterpart and never occur in the claims; they are out
of scope of this model. -/
def goParseFloat (s : String) : Option ℚ :=
  let p := splitSign s.data
  let ip := p.2.takeWhile Char.isDigit
  let r1 := p.2.dropWhile Char.isDigit
  let fr : List Char × List Char :=
    match r1 with
    | '.' :: t => (t.takeWhile Char.isDigit, t.dropWhile Char.isDigit)
    | _ => ([], r1)
  if ip = [] ∧ fr.1 = [] then none
  else
    let mant : ℚ := (digitsToNat ip : ℚ) + (digitsToNat fr.1 : ℚ) / (10 : ℚ) ^ fr.1.length
    let signed : ℚ := if p.1 then -mant else mant
    match fr.2 with
    | [] => some signed
    | c :: t =>
      if c = 'e' ∨ c = 'E' then
        let ep := splitSign t
        if ep.2 ≠ [] ∧ ep.2.all Char.isDigit then
          let e : Int := if ep.1 then -(digitsToNat ep.2 : Int) else (digitsToNat ep.2 : Int)
          some (signed * (10 : ℚ) ^ e)
        else none
      else none

/-- The boolean literal set of the enhanced boolean detection
(upload.go lines 249-253). -/
def booleanValues (s : String) : Bool :=
  ["true", "false", "1", "0", "yes", "no", "y", "n", "t", "f", "on", "off"].contains s

/-- Two-digit field value. -/
def d2v (a b : Char) : Nat := (a.toNat - 48) * 10 + (b.toNat - 48)

/-- Four-digit field value. -/
def d4v (a b c d : Char) : Nat := ((a.toNat - 48) * 10 + (b.toNat - 48)) * 100 + d2v c d

/-- Word character of the regexp class backslash-w. -/
def isWordChar (c : Char) : Bool :=
  c.isDigit || ('a' ≤ c && c ≤ 'z') || ('A' ≤ c && c ≤ 'Z') || c = '_'

/-- Date regexp 1: four digits, dash, two digits, dash, two digits. -/
def matchYMD : List Char → Bool
  | [a, b, c, d, s1, e, f, s2, g, h] =>
    [a, b, c, d, e, f, g, h].all Char.isDigit && s1 = '-' && s2 = '-'
  | _ => false

/-- Date regexps 2 and 3: two digits, sep, two digits, sep, four digits. -/
def matchDMY (sep : Char) : List Char → Bool
  | [a, b, s1, c, d, s2, e, f, g, h] =>
    [a, b, c, d, e, f, g, h].all Char.isDigit && s1 = sep && s2 = sep
  | _ => false

/-- Date regexp 4: date part as regexp 1, space, HH:MM:SS. -/
def matchYMDHMS : List Char → Bool
  | [a, b, c, d, s1, e, f, s2, g, h, sp, h1, h2, c1, m1, m2, c2, x1, x2] =>
    [a, b, c, d, e, f, g, h, h1, h2, m1, m2, x1, x2].all Char.isDigit &&
      s1 = '-' && s2 = '-' && sp = ' ' && c1 = ':' && c2 = ':'
  | _ => false

/-- Date regexp 5: two digits, slash, two digits, slash, two digits. -/
def matchMDY2 : List Char → Bool
  | [a, b, s1, c, d, s2, e, f] =>
    [a, b, c, d, e, f].all Char.isDigit && s1 = '/' && s2 = '/'
  | _ => false

/-- Date regexp 6: one or two digits, dash, three word chars, dash,
four digits. -/
def matchDMonY : List Char → Bool
  | [a, s1, w1, w2, w3, s2, e, f, g, h] =>
    [a, e, f, g, h].all Char.isDigit && [w1, w2, w3].all isWordChar && s1 = '-' && s2 = '-'
  | [a, b, s1, w1, w2, w3, s2, e, f, g, h] =>
    [a, b, e, f, g, h].all Char.isDigit && [w1, w2, w3].all isWordChar && s1 = '-' && s2 = '-'
  | _ => false

/-- Whether a trimmed value matches one of the six date regexps of
inferColumnTypeAdvanced. -/
def matchesAnyDatePattern (s : String) : Bool :=
  matchYMD s.data || matchDMY '/' s.data || matchDMY '-' s.data ||
    matchYMDHMS s.data || matchMDY2 s.data || matchDMonY s.data

/-- Leap year rule used by Go package time. -/
def isLeapYear (y : Nat) : Bool :=
  y % 4 = 0 && (y % 100 ≠ 0 || y % 400 = 0)

/-- Days in a month. -/
def daysInMonth (y m : Nat) : Nat :=
  if m = 2 then (if isLeapYear y then 29 else 28)
  else if m = 4 ∨ m = 6 ∨ m = 9 ∨ m = 11 then 30
  else 31

/-- Field-range validation performed by time.Parse on a parsed date. -/
def validYMD (y m d : Nat) : Bool :=
  1 ≤ m && m ≤ 12 && 1 ≤ d && d ≤ daysInMonth y m

/-- Field-range validation for a clock value in time.Parse. -/
def validHMS (h m s : Nat) : Bool :=
  h ≤ 23 && m ≤ 59 && s ≤ 59

/-- Go maps a two-digit year as 69-99 to 19xx and 00-68 to 20xx. -/
def year2 (yy : Nat) : Nat := if 69 ≤ yy then 1900 + yy else 2000 + yy

/-- Three-letter month names accepted by layout token Jan
(time.Parse matches them case-insensitively). -/
def monthOfName (w : List Char) : Option Nat :=
  let lw := String.mk (w.map (fun c => if 'A' ≤ c ∧ c ≤ 'Z' then Char.ofNat (c.toNat + 32) else c))
  let names := ["jan", "feb", "mar", "apr", "may", "jun", "jul", "aug", "sep", "oct", "nov", "dec"]
  match names.indexOf? lw with
  | some i => some (i + 1)
  | none => none

/-- time.Parse with layout 2006-01-02. -/
def parseL1 : List Char → Bool
  | [a, b, c, d, s1, e, f, s2, g, h] =>
    [a, b, c, d, e, f, g, h].all Char.isDigit && s1 = '-' && s2 = '-' &&
      validYMD (d4v a b c d) (d2v e f) (d2v g h)
  | _ => false

/-- time.Parse with layouts 01/02/2006 and 01-02-2006 (month/day/year
with a separator). -/
def parseL23 (sep : Char) : List Char → Bool
  | [a, b, s1, c, d, s2, e, f, g, h] =>
    [a, b, c, d, e, f, g, h].all Char.isDigit && s1 = sep && s2 = sep &&
      validYMD (d4v e f g h) (d2v a b) (d2v c d)
  | _ => false

/-- time.Parse with layout 2006-01-02 15:04:05. -/
def parseL4 : List Char → Bool
  | [a, b, c, d, s1, e, f, s2, g, h, sp, h1, h2, c1, m1, m2, c2, x1, x2] =>
    [a, b, c, d, e, f, g, h, h1, h2, m1, m2, x1, x2].all Char.isDigit &&
      s1 = '-' && s2 = '-' && sp = ' ' && c1 = ':' && c2 = ':' &&
      validYMD (d4v a b c d) (d2v e f) (d2v g h) && validHMS (d2v h1 h2) (d2v m1 m2) (d2v x1 x2)
  | _ => false

/-- time.Parse with layout 01/02/06 (two-digit year). -/
def parseL5 : List Char → Bool
  | [a, b, s1, c, d, s2, e, f] =>
    [a, b, c, d, e, f].all Char.isDigit && s1 = '/' && s2 = '/' &&
      validYMD (year2 (d2v e f)) (d2v a b) (d2v c d)
  | _ => false

/-- time.Parse with layout 2-Jan-2006 (one- or two-digit day, named
month, four-digit year). -/
def parseL6 : List Char → Bool
  | [a, s1, w1, w2, w3, s2, e, f, g, h] =>
    [a, e, f, g, h].all Char.isDigit && s1 = '-' && s2 = '-' &&
      (match monthOfName [w1, w2, w3] with
       | some m => validYMD (d4v e f g h) m (a.toNat - 48)
       | none => false)
  | [a, b, s1, w1, w2, w3, s2, e, f, g, h] =>
    [a, b, e, f, g, h].all Char.isDigit && s1 = '-' && s2 = '-' &&
      (match monthOfName [w1, w2, w3] with
       | some m => validYMD (d4v e f g h) m (d2v a b)
       | none => false)
  | _ => false

/-- Whether one of the six time.Parse layouts accepts the value. -/
def parsesAnyLayout (s : String) : Bool :=
  parseL1 s.data || parseL23 '/' s.data || parseL23 '-' s.data ||
    parseL4 s.data || parseL5 s.data || parseL6 s.data

/-- The per-value date check of the inference loop (upload.go lines
258-276): the value must match one of the regexps, and then some
layout must parse it. -/
def goIsDate (s : String) : Bool :=
  matchesAnyDatePattern s && parsesAnyLayout s

/-- ValueCount (upload.go lines 112-115). -/
structure ValueCount where
  value : String
  count : Nat
deriving Repr, DecidableEq

/-- ColumnMetadata (upload.go lines 118-140).  float64 pointers become
Option rationals; Go maps that hold mappings become association lists
in insertion order (map-value semantics: upserts replace in place).
Median is never assigned by the code and stays none. -/
structure ColumnMetadata where
  name : String
  dataType : String
  sqlType : String
  nullable : Bool
  isCategory : Bool
  isBoolean : Bool
  isDate : Bool
  uniqueCount : Nat
  nullCount : Nat
  sampleValues : List String
  topValues : List ValueCount
  enumValues : List String
  min? : Option ℚ
  max? : Option ℚ
  mean? : Option ℚ
  median? : Option ℚ
  std? : Option ℚ
  description : String
  valueMappings : List (String × String)
  synonymMappings : List (String × String)
  exampleQueries : List String
deriving Repr, DecidableEq

/-- The zero ColumnMetadata the function starts from (upload.go lines
144-152). -/
def emptyMetadata (columnName : String) : ColumnMetadata :=
  { name := columnName, dataType := "TEXT", sqlType := "VARCHAR",
    nullable := false, isCategory := false, isBoolean := false, isDate := false,
    uniqueCount := 0, nullCount := 0,
    sampleValues := [], topValues := [], enumValues := [],
    min? := none, max? := none, mean? := none, median? := none, std? := none,
    description := "", valueMappings := [], synonymMappings := [], exampleQueries := [] }

/-- Upsert into an association list: replace the value in place when
the key exists, append otherwise (Go map assignment). -/
def upsert : List (String × String) → String → String → List (String × String)
  | [], k, v => [(k, v)]
  | (k0, v0) :: rest, k, v =>
    if k0 = k then (k0, v) :: rest else (k0, v0) :: upsert rest k v

/-- valueCounts[val]++ on the association-list view of the frequency
map (position of an existing key is irrelevant: only the key set and
the counts are observable, iteration order is a parameter). -/
def bumpCount : List (String × Nat) → String → List (String × Nat)
  | [], k => [(k, 1)]
  | (k0, c) :: rest, k =>
    if k0 = k then (k0, c + 1) :: rest else (k0, c) :: bumpCount rest k

/-- The frequency map accumulated in lockstep with the sample loop
(upload.go line 201): one bump per collected value. -/
def buildCounts (values : List String) : List (String × Nat) :=
  values.foldl bumpCount []

/-- Read a count from the frequency map. -/
def lookupCount (counts : List (String × Nat)) (k : String) : Nat :=
  match counts.find? (fun p => p.1 == k) with
  | some p => p.2
  | none => 0

/-- State of the single pass of upload.go lines 232-277: the four
all-x flags plus the numericValues slice, exactly as mutated by the
loop body (integer check first, then float check guarded by the
current allIntegers, then boolean, then date). -/
structure InferFlags where
  allIntegers : Bool
  allFloats : Bool
  allDates : Bool
  allBooleans : Bool
  numericValues : List ℚ
deriving Repr, DecidableEq

/-- One iteration of the inference loop over a sampled value. -/
def inferStep (st : InferFlags) (val : String) : InferFlags :=
  let st1 :=
    match goAtoi val with
    | some n => { st with numericValues := st.numericValues ++ [(n : ℚ)] }
    | none => { st with allIntegers := false }
  let st2 :=
    match goParseFloat val with
    | some q =>
      if st1.allIntegers then st1
      else { st1 with numericValues := st1.numericValues ++ [q] }
    | none => { st1 with allFloats := false }
  let st3 :=
    if booleanValues (goToLower (goTrimSpace val)) then st2
    else { st2 with allBooleans := false }
  if goIsDate val then st3 else { st3 with allDates := false }

/-- The whole inference loop. -/
def inferAll (values : List String) : InferFlags :=
  values.foldl inferStep ⟨true, true, true, true, []⟩

/-- Inner pass of the exchange sort of upload.go lines 317-323:
thread the element currently at position i through the j loop,
swapping it with a later element whenever its count is smaller.
Returns the element that ends at position i and the final contents of
the later positions. -/
def selectStep : (String × Nat) → List (String × Nat) → (String × Nat) × List (String × Nat)
  | cur, [] => (cur, [])
  | cur, y :: ys =>
    if cur.2 < y.2 then
      let r := selectStep y ys
      (r.1, cur :: r.2)
    else
      let r := selectStep cur ys
      (r.1, y :: r.2)

/-- The full i/j exchange sort (descending by count; observe it swaps
elements at a distance, so ties do not keep their input order). -/
def exchSort : List (String × Nat) → List (String × Nat)
  | [] => []
  | x :: xs =>
    let r := selectStep x xs
    r.1 :: exchSort r.2
termination_by l => l.length
decreasing_by
  have h : ∀ (cur : String × Nat) (ys : List (String × Nat)),
      (selectStep cur ys).2.length = ys.length := by
    intro cur ys
    induction ys generalizing cur with
    | nil => rfl
    | cons y ys ih => simp only [selectStep]; split <;> simp [ih]
  simp [h]

/-- A single-quote character, used inside generated example queries. -/
def sqc : String := String.mk [Char.ofNat 39]

/-- Go fmt %.1f on a float64, idealised over exact rationals: round to
one decimal (ties to even, as strconv.FormatFloat does) and print.
No claim depends on this formatting; it only feeds generated example
strings. -/
def goFmtF1 (q : ℚ) : String :=
  let neg := q < 0
  let a : ℚ := if q < 0 then -q else q
  let scaled := a * 10
  let fl : Nat := scaled.floor.toNat
  let frac : ℚ := scaled - (fl : ℚ)
  let n : Nat :=
    if frac > 1 / 2 then fl + 1
    else if frac < 1 / 2 then fl
    else if fl % 2 = 0 then fl else fl + 1
  (if neg then "-" else "") ++ toString (n / 10) ++ "." ++ toString (n % 10)

/-- generateColumnExamples (upload.go lines 422-447). -/
def generateColumnExamples (columnName : String) (m : ColumnMetadata) : List String :=
  if m.isBoolean then
    ["How many records have " ++ columnName ++ " as true?",
     "Show me all data where " ++ columnName ++ " is false"]
  else if m.isCategory ∧ m.topValues ≠ [] then
    match m.topValues with
    | tv :: _ =>
      ["How many records have " ++ columnName ++ " equal to " ++ sqc ++ tv.value ++ sqc ++ "?",
       "Show distribution of " ++ columnName]
    | [] => []
  else if m.dataType = "INTEGER" ∨ m.dataType = "FLOAT" then
    match m.min?, m.max? with
    | some mn, some mx =>
      ["What is the average " ++ columnName ++ "?",
       "Show records where " ++ columnName ++ " is greater than " ++ goFmtF1 ((mn + mx) / 2)]
    | _, _ => []
  else if m.isDate then
    ["Show records from the latest " ++ columnName,
     "Group by " ++ columnName ++ " and count"]
  else []

/-- The boolean ValueMappings loop of upload.go lines 348-356 (keyed
by the sampled value, mapped via its trimmed lower-case form). -/
def boolMappings (values : List String) : List (String × String) :=
  values.foldl (fun m val =>
    let lower := goToLower (goTrimSpace val)
    if lower ∈ (["yes", "y", "true", "1", "t", "on"] : List String) then upsert m val "TRUE"
    else if lower ∈ (["no", "n", "false", "0", "f", "off"] : List String) then upsert m val "FALSE"
    else m) []

/-- The categorical ValueMappings loop of upload.go lines 394-409
(short enum values M/F/Y/N get generic explanations; byte length and
character length agree on the ASCII inputs of the claims). -/
def catMappings (enumValues : List String) : List (String × String) :=
  enumValues.foldl (fun m v0 =>
    let val := goTrimSpace v0
    if val.length ≤ 3 then
      if goToUpper val = "M" then upsert m val "M (possibly male, medium, or other)"
      else if goToUpper val = "F" then upsert m val "F (possibly female, false, or other)"
      else if goToUpper val = "Y" then upsert m val "Y (possibly yes or year)"
      else if goToUpper val = "N" then upsert m val "N (possibly no or number)"
      else m
    else m) []

/-- Everything inferColumnTypeAdvanced does after the sampling pass
(upload.go lines 218-418), over the collected non-empty sample
values, the accumulated null count, and the iteration order in which
Go delivers the keys of the valueCounts map (unspecified in Go, hence
a parameter; it must be a permutation of the keys).  The float
literal 0.2 is the exact 1/5 here; both sides of the comparison are
float64-exact on all claim inputs.

The statistics block models the pointer aliasing of upload.go lines
281-291 faithfully: metadata.Min and metadata.Max are BOTH set to
&numericValues[0], so the two if branches of the min/max loop write
the SAME cell, which therefore ends as the last numeric value (every
differing val overwrites it).  The loop reads each element before any
write can touch it (cell 0 is read in iteration 0, the cells after it
are never written), so the slot fold and the sum fold below range
over the original values - they are the two independent
accumulations of that one loop.  The later variance loop re-reads
the array, whose cell 0 now holds the final slot value, hence it
folds over slot :: qs.  Min and Max both report the final slot
value. -/
def typeDetermine (columnName : String) (values : List String) (nullCount : Nat)
    (order : List String) : ColumnMetadata :=
  let valueCounts := buildCounts values
  let uniqueCount := valueCounts.length
  let base := { emptyMetadata columnName with
    uniqueCount := uniqueCount, nullCount := nullCount,
    nullable := decide (nullCount > 0), sampleValues := values.take 5 }
  if values = [] then base
  else
    let flags := inferAll values
    let stats : Option (ℚ × ℚ × ℚ × ℚ) :=
      match flags.numericValues with
      | [] => none
      | q :: qs =>
        let slot := (q :: qs).foldl
          (fun s v =>
            let s1 := if v < s then v else s
            if s1 < v then v else s1) q
        let sum := (q :: qs).foldl (fun a v => a + v) 0
        let mean := sum / ((q :: qs).length : ℚ)
        let variance := (slot :: qs).foldl (fun a v => a + (v - mean) * (v - mean)) 0
        some (slot, slot, mean, variance / ((q :: qs).length : ℚ))
    let sortedValues := exchSort (order.map (fun k => (k, lookupCount valueCounts k)))
    let topValues := (sortedValues.take 10).map (fun p => ValueCount.mk p.1 p.2)
    let mid := { base with
      topValues := topValues,
      min? := stats.map (fun (t : ℚ × ℚ × ℚ × ℚ) => t.1),
      max? := stats.map (fun (t : ℚ × ℚ × ℚ × ℚ) => t.2.1),
      mean? := stats.map (fun (t : ℚ × ℚ × ℚ × ℚ) => t.2.2.1),
      std? := stats.map (fun (t : ℚ × ℚ × ℚ × ℚ) => t.2.2.2) }
    let m1 :=
      if flags.allBooleans && decide (uniqueCount ≤ 10) then
        { mid with
          dataType := "BOOLEAN", sqlType := "BOOLEAN", isBoolean := true,
          description := "Boolean values",
          valueMappings := boolMappings values,
          synonymMappings :=
            [("true", columnName ++ " = TRUE"), ("false", columnName ++ " = FALSE"),
             ("yes", columnName ++ " = TRUE"), ("no", columnName ++ " = FALSE")] }
      else if flags.allIntegers then
        { mid with
          dataType := "INTEGER", sqlType := "INTEGER", description := "Whole numbers" }
      else if flags.allFloats then
        { mid with
          dataType := "FLOAT", sqlType := "DOUBLE", description := "Decimal numbers" }
      else if flags.allDates then
        { mid with
          dataType := "DATE", sqlType := "DATE", isDate := true,
          description := "Date values" }
      else if ((uniqueCount : ℚ) / (values.length : ℚ) < 1 / 5 ∧ uniqueCount ≤ 50)
          ∨ uniqueCount ≤ 20 then
        { mid with
          isCategory := true, dataType := "TEXT", sqlType := "VARCHAR",
          description := "Categorical data with " ++ toString uniqueCount ++ " categories",
          enumValues := sortedValues.map (fun (p : String × Nat) => p.1),
          valueMappings := catMappings (sortedValues.map (fun (p : String × Nat) => p.1)) }
      else
        { mid with
          description := "Text data" }
    { m1 with exampleQueries := generateColumnExamples columnName m1 }

/-- The sampling cap (upload.go line 176). -/
def maxSampleSize : Nat := 1000

/-- State of the sampling loop. -/
structure SampleState where
  values : List String
  nullCount : Nat
deriving Repr, DecidableEq

/-- One iteration of the sampling loop (upload.go lines 184-207) at
row index i: break once 1000 values are collected; a row shorter than
the column index or a cell that trims to empty counts as null;
otherwise the trimmed value is collected. -/
def sampleStep (data : List (List String)) (columnIndex : Nat)
    (st : SampleState) (i : Nat) : SampleState :=
  if maxSampleSize ≤ st.values.length then st
  else
    let row := data.getD i []
    if row.length ≤ columnIndex then { st with nullCount := st.nullCount + 1 }
    else
      let val := goTrimSpace (row.getD columnIndex "")
      if val = "" then { st with nullCount := st.nullCount + 1 }
      else { st with values := st.values ++ [val] }

/-- The indices visited by a loop from 0 below totalRows with the
given stride. -/
def sampleIdxs (totalRows stepSize : Nat) : List Nat :=
  (List.range ((totalRows + stepSize - 1) / stepSize)).map (fun k => k * stepSize)

/-- Whether a row reads as null for the column (used by the exact
second scan, upload.go lines 210-216). -/
def rowIsNull (columnIndex : Nat) (row : List String) : Bool :=
  decide (row.length ≤ columnIndex) || (goTrimSpace (row.getD columnIndex "") == "")

/-- The full sampling pass of upload.go lines 158-216: strided sample
collection, then - only when totalRows exceeds the cap - a second
scan over ALL rows that adds every null cell to the already positive
running nullCount (so nulls seen by the sampling pass are counted
twice; the code comment announces a scan of the remaining data but
the loop starts back at row 0). -/
def sampleColumn (data : List (List String)) (columnIndex : Nat) : SampleState :=
  let totalRows := data.length
  let stepSize := if maxSampleSize < totalRows then totalRows / maxSampleSize else 1
  let st := (sampleIdxs totalRows stepSize).foldl (sampleStep data columnIndex) ⟨[], 0⟩
  if maxSampleSize < totalRows then
    { st with nullCount := st.nullCount + data.countP (rowIsNull columnIndex) }
  else st

/-- inferColumnTypeAdvanced (upload.go lines 143-419): early return on
an empty matrix, else sample then classify. -/
def inferColumnTypeAdvanced (data : List (List String)) (columnIndex : Nat)
    (columnName : String) (order : List String) : ColumnMetadata :=
  if data = [] then emptyMetadata columnName
  else
    let st := sampleColumn data columnIndex
    typeDetermine columnName st.values st.nullCount order

/-- inferColumnType (upload.go lines 450-453). -/
def inferColumnType (data : List (List String)) (columnIndex : Nat)
    (order : List String) : String :=
  (inferColumnTypeAdvanced data columnIndex "" order).sqlType

/-- The column-definition list built by createTable (upload.go lines
463-468): one quoted header plus its inferred storage type, in source
header order.  orders gives the map-iteration order used for the
column at each index. -/
def createTableColumnDefs (headers : List String) (data : List (List String))
    (orders : Nat → List String) : List String :=
  headers.enum.map (fun p => "\"" ++ p.2 ++ "\" " ++ inferColumnType data p.1 (orders p.1))

/-- The per-cell conversion of the insert loop (upload.go lines
511-519): only the exactly empty string becomes SQL NULL; anything
else, including whitespace, is passed through verbatim. -/
def toSqlCell (val : String) : Option String :=
  if val = "" then none else some val

/-- One bound parameter row (upload.go lines 509-524): one slot per
header; extra cells are dropped, missing cells are padded with NULL. -/
def toSqlRow (numCols : Nat) (row : List String) : List (Option String) :=
  (List.range numCols).map (fun j =>
    match row.get? j with
    | some v => toSqlCell v
    | none => none)

/-- Whether every stmt.Exec of a batch starting at global row index
idx succeeds, for a failure oracle f on global row indices (the model
of the storage driver: f i = true means the insert of row i returns
an error). -/
def execRowsOk (f : Nat → Bool) (idx : Nat) (batch : List (List String)) : Bool :=
  (List.range batch.length).all (fun j => !f (idx + j))

/-- The batch loop of createTable (upload.go lines 477-541): slices of
1000 rows, each in its own transaction; a failing row rolls the
transaction back, discards the whole batch and stops with an error,
leaving previously committed batches in place.  Returns the committed
(converted) rows and the success flag. -/
def insertBatches (numCols : Nat) (f : Nat → Bool) (idx : Nat) :
    List (List String) → List (List (Option String)) × Bool
  | [] => ([], true)
  | x :: xs =>
    let batch := (x :: xs).take 1000
    let rest := (x :: xs).drop 1000
    if execRowsOk f idx batch then
      let r := insertBatches numCols f (idx + batch.length) rest
      (batch.map (toSqlRow numCols) ++ r.1, r.2)
    else ([], false)
termination_by rows => rows.length
decreasing_by
  simp only [List.length_drop, List.length_cons]
  omega

/-- The storage state: tables by name, each a list of stored rows. -/
def DbState := List (String × List (List (Option String)))

/-- DROP TABLE IF EXISTS. -/
def dropTable (db : DbState) (tableName : String) : DbState :=
  db.filter (fun t => !(t.1 == tableName))

/-- createTable (upload.go lines 455-544): drop, create, then batched
load.  The created table holds whatever rows were committed; the Bool
is false when some batch failed (the error return). -/
def createTableModel (tableName : String) (headers : List String)
    (data : List (List String)) (f : Nat → Bool) (db : DbState) : DbState × Bool :=
  let r := insertBatches headers.length f 0 data
  ((tableName, r.1) :: dropTable db tableName, r.2)

/-- Number of rows stored for a table. -/
def rowCount (db : DbState) (tableName : String) : Nat :=
  match db.find? (fun t => t.1 == tableName) with
  | some t => t.2.length
  | none => 0

/-- generateSchemaSummary (upload.go lines 665-678); the %v rendering
of a string slice is bracketed and space-separated. -/
def fmtStringSlice (xs : List String) : String :=
  "[" ++ String.intercalate " " xs ++ "]"

/-- The per-column line of the schema summary. -/
def colSummaryLine (col : ColumnMetadata) : String :=
  "- " ++ col.name ++ " (" ++ col.dataType ++ "): " ++ col.description ++
    (if col.isCategory then " [Categories: " ++ fmtStringSlice col.sampleValues ++ "]" else "") ++
    "\n"

/-- generateSchemaSummary builds the header line then one line per
column. -/
def generateSchemaSummary (columns : List ColumnMetadata) : String :=
  "Table has " ++ toString columns.length ++ " columns:\n" ++
    String.join (columns.map colSummaryLine)

/-- generateTableExamples (upload.go lines 580-644). -/
def generateTableExamples (tableName : String) (columns : List ColumnMetadata) : List String :=
  let categoricalCols := columns.filter (fun c => c.isCategory)
  let numericCols := columns.filter (fun c =>
    !c.isCategory && (c.dataType == "INTEGER" || c.dataType == "FLOAT"))
  let booleanCols := columns.filter (fun c =>
    !c.isCategory && !(c.dataType == "INTEGER" || c.dataType == "FLOAT") && c.isBoolean)
  let e0 := ["SELECT COUNT(*) FROM " ++ tableName]
  let e1 :=
    match categoricalCols with
    | col :: _ =>
      match col.topValues with
      | tv :: _ =>
        ["SELECT * FROM " ++ tableName ++ " WHERE " ++ col.name ++ " = " ++
           sqc ++ tv.value ++ sqc,
         "SELECT " ++ col.name ++ ", COUNT(*) FROM " ++ tableName ++ " GROUP BY " ++ col.name]
      | [] => []
    | [] => []
  let e2 :=
    match numericCols with
    | col :: _ =>
      ["SELECT AVG(" ++ col.name ++ ") FROM " ++ tableName,
       "SELECT MAX(" ++ col.name ++ "), MIN(" ++ col.name ++ ") FROM " ++ tableName] ++
        (match col.min?, col.max? with
         | some mn, some mx =>
           ["SELECT * FROM " ++ tableName ++ " WHERE " ++ col.name ++ " > " ++
              goFmtF1 ((mn + mx) / 2)]
         | _, _ => [])
    | [] => []
  let e3 :=
    match booleanCols with
    | col :: _ =>
      ["SELECT COUNT(*) FROM " ++ tableName ++ " WHERE " ++ col.name ++ " = TRUE",
       "SELECT COUNT(*) FROM " ++ tableName ++ " WHERE " ++ col.name ++ " = FALSE"]
    | [] => []
  let e4 :=
    match categoricalCols, numericCols with
    | catCol :: _, numCol :: _ =>
      match catCol.topValues with
      | tv :: _ =>
        ["SELECT AVG(" ++ numCol.name ++ ") FROM " ++ tableName ++ " WHERE " ++
           catCol.name ++ " = " ++ sqc ++ tv.value ++ sqc]
      | [] => []
    | _, _ => []
  e0 ++ e1 ++ e2 ++ e3 ++ e4

/-- generateQueryHints (upload.go lines 647-663); hints is a map keyed
by column name, modelled as an association list in insertion order. -/
def generateQueryHints (columns : List ColumnMetadata) : List (String × String) :=
  columns.foldl (fun hints col =>
    if col.isBoolean then upsert hints col.name "Use TRUE/FALSE for boolean queries"
    else if col.isCategory ∧ col.valueMappings.length > 0 then
      upsert hints col.name "Has value mappings - check value_mappings field"
    else if col.dataType = "INTEGER" ∨ col.dataType = "FLOAT" then
      match col.min?, col.max? with
      | some mn, some mx =>
        upsert hints col.name ("Numeric range: " ++ goFmtF1 mn ++ " to " ++ goFmtF1 mx)
      | _, _ => hints
    else hints) []

/-- The metadata map assembled by generateTableMetadata (upload.go
lines 564-574), minus the generated_at wall-clock timestamp, which
the determinism claim itself excludes. -/
structure TableMetadata where
  tableName : String
  totalRows : Nat
  totalColumns : Nat
  columns : List ColumnMetadata
  schemaSummary : String
  exampleQueries : List String
  metadataVersion : String
  queryHints : List (String × String)
deriving Repr, DecidableEq

/-- generateTableMetadata (upload.go lines 547-577).  The goroutines
each write the inference result for their own column index and are
joined before the map is assembled, so the column list is their
deterministic indexed result; orders gives per column the map
iteration order. -/
def generateTableMetadata (tableName : String) (headers : List String)
    (data : List (List String)) (orders : Nat → List String) : TableMetadata :=
  let columns := headers.enum.map (fun p => inferColumnTypeAdvanced data p.1 p.2 (orders p.1))
  { tableName := tableName, totalRows := data.length, totalColumns := headers.length,
    columns := columns,
    schemaSummary := generateSchemaSummary columns,
    exampleQueries := generateTableExamples tableName columns,
    metadataVersion := "2.0",
    queryHints := generateQueryHints columns }

/-- HandleFileUpload after parsing (upload.go lines 36-46): create the
table (drop + create + batched load); on success generate the
metadata. -/
def handleUploadModel (tableName : String) (headers : List String)
    (data : List (List String)) (orders : Nat → List String) (f : Nat → Bool)
    (db : DbState) : Option (DbState × TableMetadata) :=
  let r := createTableModel tableName headers data f db
  if r.2 then some (r.1, generateTableMetadata tableName headers data orders) else none

/-- The storage-type mapping stated by the spec: INTEGER to INTEGER,
FLOAT to DOUBLE, BOOLEAN to BOOLEAN, DATE to DATE, TEXT (including
categorical) to VARCHAR.  Stated from the spec contract, to be
compared with the SqlType the code assigns. -/
def sqlTypeMap : String → String
  | "INTEGER" => "INTEGER"
  | "FLOAT" => "DOUBLE"
  | "BOOLEAN" => "BOOLEAN"
  | "DATE" => "DATE"
  | _ => "VARCHAR"

/-- Follows the claim wording: the exact number of empty or too-short
cells for the column over the ENTIRE input (what the spec says
nullCount reports). -/
def specExactNullCount (data : List (List String)) (columnIndex : Nat) : Nat :=
  data.countP (rowIsNull columnIndex)

/-- An integer-parseable value cast to the numeric domain. -/
def atoiQ (v : String) : Option ℚ :=
  match goAtoi v with
  | some n => some (n : ℚ)
  | none => none

/-- The values strictly after the first value that fails the integer
check: these are the ones the inference loop pushes into
numericValues a second time when they parse as integers (the
allIntegers flag is already false there, so the float check appends
them again). -/
def afterFirstNonInt (values : List String) : List String :=
  (values.dropWhile (fun v => (goAtoi v).isSome)).tail

/-- Straight-line characterisation of the numericValues slice built by
the inference loop from a given starting value of the allIntegers
flag (proved equal to the loop below). -/
def numericTail (flag : Bool) : List String → List ℚ
  | [] => []
  | v :: vs =>
    match goAtoi v, goParseFloat v with
    | some n, some q => (n : ℚ) :: ((if flag then [] else [q]) ++ numericTail flag vs)
    | some n, none => (n : ℚ) :: numericTail flag vs
    | none, some q => q :: numericTail false vs
    | none, none => numericTail false vs

/-- The order-insensitive part of ColumnMetadata: every field except
those built from the map iteration order (topValues, enumValues, the
mappings and the generated example strings). -/
structure ColumnCore where
  name : String
  dataType : String
  sqlType : String
  nullable : Bool
  isCategory : Bool
  isBoolean : Bool
  isDate : Bool
  uniqueCount : Nat
  nullCount : Nat
  sampleValues : List String
  min? : Option ℚ
  max? : Option ℚ
  mean? : Option ℚ
  median? : Option ℚ
  std? : Option ℚ
  description : String
deriving Repr, DecidableEq

/-- Projection of a ColumnMetadata onto its order-insensitive core. -/
def coreOf (m : ColumnMetadata) : ColumnCore :=
  { name := m.name, dataType := m.dataType, sqlType := m.sqlType,
    nullable := m.nullable, isCategory := m.isCategory, isBoolean := m.isBoolean,
    isDate := m.isDate, uniqueCount := m.uniqueCount, nullCount := m.nullCount,
    sampleValues := m.sampleValues, min? := m.min?, max? := m.max?,
    mean? := m.mean?, median? := m.median?, std? := m.std?,
    description := m.description }

/-- An oracle under which no insert fails. -/
def noFailOracle : Nat → Bool := fun _ => false

/-- C1 failing input: 1001 rows, row 0 an empty cell, the rest the
value x. -/
def c1data : List (List String) := [[""]] ++ List.replicate 1000 ["x"]

/-- C4/C2 tie input: counts A:2 B:2 C:3 in first-seen order A, B, C. -/
def tieData : List (List String) := [["A"], ["A"], ["B"], ["B"], ["C"], ["C"], ["C"]]

/-- C5 demo input: 2500 one-cell rows. -/
def c5Data : List (List String) := List.replicate 2500 ["r"]

/-- 20 distinct non-numeric, non-boolean, non-date values. -/
def c7block1 : List String := (List.range 20).map (fun i => "w" ++ toString i)

set_option maxRecDepth 8192 in
/-- C7 witness column 1: 1000 sampled values with exactly 20 distinct
values. -/
def c7values1 : List String := c7block1 ++ List.replicate 980 "w0"

/-- 21 distinct non-numeric, non-boolean, non-date values. -/
def c7block2 : List String := (List.range 21).map (fun i => "v" ++ toString i)

/-- C7 witness column 2: 105 sampled values with exactly 21 distinct
values, so the unique ratio is exactly 21/105 = 0.2. -/
def c7values2 : List String := c7block2 ++ List.replicate 84 "v0"

theorem selectStep_length (cur : String × Nat) (ys : List (String × Nat)) :
    (selectStep cur ys).2.length = ys.length := by
  induction ys generalizing cur with
  | nil => rfl
  | cons y ys ih => simp only [selectStep]; split <;> simp [ih]

theorem selectStep_fst_ge (cur : String × Nat) (ys : List (String × Nat)) :
    cur.2 ≤ (selectStep cur ys).1.2 := by
  induction ys generalizing cur with
  | nil => exact le_refl _
  | cons y ys ih =>
    simp only [selectStep]
    split
    · exact le_trans (le_of_lt (by assumption)) (ih y)
    · exact ih cur

theorem selectStep_snd_le (cur : String × Nat) (ys : List (String × Nat)) :
    ∀ z ∈ (selectStep cur ys).2, z.2 ≤ (selectStep cur ys).1.2 := by
  induction ys generalizing cur with
  | nil => intro z hz; simp [selectStep] at hz
  | cons y ys ih =>
    intro z hz
    by_cases h : cur.2 < y.2
    · simp only [selectStep, if_pos h] at hz ⊢
      rcases List.mem_cons.1 hz with rfl | hz
      · exact le_trans (le_of_lt h) (selectStep_fst_ge y ys)
      · exact ih y z hz
    · simp only [selectStep, if_neg h] at hz ⊢
      rcases List.mem_cons.1 hz with rfl | hz
      · exact le_trans (le_of_not_lt h) (selectStep_fst_ge cur ys)
      · exact ih cur z hz

theorem selectStep_perm (cur : String × Nat) (ys : List (String × Nat)) :
    List.Perm ((selectStep cur ys).1 :: (selectStep cur ys).2) (cur :: ys) := by
  induction ys generalizing cur with
  | nil => simp [selectStep]
  | cons y ys ih =>
    by_cases h : cur.2 < y.2
    · simp only [selectStep, if_pos h]
      exact (List.Perm.swap cur (selectStep y ys).1 (selectStep y ys).2).trans
        ((ih y).cons cur)
    · simp only [selectStep, if_neg h]
      exact ((List.Perm.swap y (selectStep cur ys).1 (selectStep cur ys).2).trans
        ((ih cur).cons y)).trans (List.Perm.swap cur y ys)

theorem exchSort_perm_aux :
    ∀ (n : Nat) (l : List (String × Nat)), l.length ≤ n → List.Perm (exchSort l) l := by
  intro n
  induction n with
  | zero =>
    intro l hl
    have : l = [] := List.eq_nil_of_length_eq_zero (Nat.le_zero.1 hl)
    subst this; simp [exchSort]
  | succ n ih =>
    intro l hl
    match l with
    | [] => simp [exchSort]
    | x :: xs =>
      simp only [exchSort]
      have hlen : (selectStep x xs).2.length = xs.length := selectStep_length x xs
      have h1 : List.Perm (exchSort (selectStep x xs).2) (selectStep x xs).2 := by
        apply ih
        rw [hlen]
        exact Nat.le_of_succ_le_succ hl
      exact (h1.cons (selectStep x xs).1).trans (selectStep_perm x xs)

theorem exchSort_perm (l : List (String × Nat)) : List.Perm (exchSort l) l :=
  exchSort_perm_aux l.length l (le_refl _)

theorem exchSort_sorted_aux :
    ∀ (n : Nat) (l : List (String × Nat)), l.length ≤ n →
      List.Pairwise (fun a b => b.2 ≤ a.2) (exchSort l) := by
  intro n
  induction n with
  | zero =>
    intro l hl
    have : l = [] := List.eq_nil_of_length_eq_zero (Nat.le_zero.1 hl)
    subst this; simp [exchSort]
  | succ n ih =>
    intro l hl
    match l with
    | [] => simp [exchSort]
    | x :: xs =>
      simp only [exchSort]
      rw [List.pairwise_cons]
      constructor
      · intro z hz
        have hz2 : z ∈ (selectStep x xs).2 :=
          (exchSort_perm (selectStep x xs).2).mem_iff.1 hz
        exact selectStep_snd_le x xs z hz2
      · apply ih
        rw [selectStep_length]
        exact Nat.le_of_succ_le_succ hl

theorem exchSort_sorted (l : List (String × Nat)) :
    List.Pairwise (fun a b => b.2 ≤ a.2) (exchSort l) :=
  exchSort_sorted_aux l.length l (le_refl _)

theorem parseAgree {s : String} {n : Int} (h : goAtoi s = some n) :
    goParseFloat s = some (n : ℚ) := by
  unfold goAtoi at h
  by_cases h1 : (splitSign s.data).2 = []
  · rw [if_pos h1] at h; exact absurd h (by simp)
  · rw [if_neg h1] at h
    by_cases h2 : (splitSign s.data).2.all Char.isDigit
    · rw [if_pos h2] at h
      have hall : ∀ x ∈ (splitSign s.data).2, Char.isDigit x = true := List.all_eq_true.1 h2
      simp only [goParseFloat]
      rw [List.takeWhile_eq_self_iff.2 hall, List.dropWhile_eq_nil_iff.2 hall]
      rw [if_neg (show ¬((splitSign s.data).2 = [] ∧ ([] : List Char) = []) from by
        simp [h1])]
      cases hs : (splitSign s.data).1
      · simp only [hs, Bool.false_eq_true, if_false] at h
        split at h
        · exact absurd h (by simp)
        · have hv := Option.some.inj h
          rw [← hv]
          simp [hs, digitsToNat]
      · simp only [hs, if_true] at h
        split at h
        · exact absurd h (by simp)
        · have hv := Option.some.inj h
          rw [← hv]
          simp [hs, digitsToNat]
    · rw [if_neg h2] at h
      exact absurd h (by simp)

theorem inferStep_numeric (st : InferFlags) (v : String) :
    (inferStep st v).numericValues
      = st.numericValues ++
          (match goAtoi v, goParseFloat v with
           | some n, some q => (n : ℚ) :: (if st.allIntegers then [] else [q])
           | some n, none => [(n : ℚ)]
           | none, some q => [q]
           | none, none => []) := by
  cases hA : goAtoi v <;> cases hF : goParseFloat v <;>
    simp only [inferStep, hA, hF] <;> split_ifs <;> simp_all

theorem inferStep_allIntegers (st : InferFlags) (v : String) :
    (inferStep st v).allIntegers = (st.allIntegers && (goAtoi v).isSome) := by
  cases hA : goAtoi v <;> cases hF : goParseFloat v <;>
    simp only [inferStep, hA, hF] <;> split_ifs <;> simp_all

theorem inferFold_numeric (vs : List String) (st : InferFlags) :
    (vs.foldl inferStep st).numericValues
      = st.numericValues ++ numericTail st.allIntegers vs := by
  induction vs generalizing st with
  | nil => simp [numericTail]
  | cons v vs ih =>
    rw [List.foldl_cons, ih, inferStep_numeric, inferStep_allIntegers]
    cases hA : goAtoi v <;> cases hF : goParseFloat v <;>
      cases hI : st.allIntegers <;>
      simp [numericTail, hA, hF, hI]

theorem inferAll_numeric (values : List String) :
    (inferAll values).numericValues = numericTail true values := by
  unfold inferAll
  rw [inferFold_numeric]
  rfl

theorem numericTail_false_perm (vs : List String) :
    List.Perm (numericTail false vs)
      (vs.filterMap goParseFloat ++ vs.filterMap atoiQ) := by
  induction vs with
  | nil => simp [numericTail]
  | cons v vs ih =>
    cases hA : goAtoi v with
    | none =>
      cases hF : goParseFloat v with
      | none =>
        simpa [numericTail, hA, hF, List.filterMap_cons, atoiQ] using ih
      | some q =>
        simpa [numericTail, hA, hF, List.filterMap_cons, atoiQ] using ih.cons q
    | some n =>
      have hF : goParseFloat v = some (n : ℚ) := parseAgree hA
      simp only [numericTail, hA, hF, List.filterMap_cons, atoiQ, Option.map_some,
        if_false, Bool.false_eq_true, List.cons_append, List.nil_append]
      refine List.Perm.cons _ ?_
      exact (ih.cons _).trans List.perm_middle.symm

theorem numericTail_true_perm (vs : List String) :
    List.Perm (numericTail true vs)
      (vs.filterMap goParseFloat ++ (afterFirstNonInt vs).filterMap atoiQ) := by
  induction vs with
  | nil => simp [numericTail, afterFirstNonInt]
  | cons v vs ih =>
    cases hA : goAtoi v with
    | some n =>
      have hF : goParseFloat v = some (n : ℚ) := parseAgree hA
      have hdw : afterFirstNonInt (v :: vs) = afterFirstNonInt vs := by
        simp [afterFirstNonInt, List.dropWhile_cons, hA]
      rw [hdw]
      simpa [numericTail, hA, hF, List.filterMap_cons, atoiQ] using ih.cons ((n : Int) : ℚ)
    | none =>
      have hdw : afterFirstNonInt (v :: vs) = vs := by
        simp [afterFirstNonInt, List.dropWhile_cons, hA]
      rw [hdw]
      cases hF : goParseFloat v with
      | none =>
        simpa [numericTail, hA, hF, List.filterMap_cons, atoiQ] using numericTail_false_perm vs
      | some q =>
        simpa [numericTail, hA, hF, List.filterMap_cons, atoiQ] using
          (numericTail_false_perm vs).cons q

theorem numericTail_eq_nil_iff : ∀ (vs : List String) (flag : Bool),
    numericTail flag vs = [] ↔ vs.filterMap goParseFloat = [] := by
  intro vs
  induction vs with
  | nil => intro flag; simp [numericTail]
  | cons v vs ih =>
    intro flag
    cases hA : goAtoi v with
    | some n =>
      have hF := parseAgree hA
      simp [numericTail, hA, hF, List.filterMap_cons]
    | none =>
      cases hF : goParseFloat v with
      | some q => simp [numericTail, hA, hF, List.filterMap_cons]
      | none =>
        simp only [numericTail, hA, hF, List.filterMap_cons]
        exact ih false

theorem getLast?_append_ne_nil (l1 l2 : List ℚ) (h : ¬l2 = []) :
    (l1 ++ l2).getLast? = l2.getLast? := by
  rw [List.getLast?_append]
  cases hl : l2.getLast? with
  | none => exact absurd (List.getLast?_eq_none_iff.1 hl) h
  | some a => simp

theorem numericTail_getLast : ∀ (vs : List String) (flag : Bool),
    (numericTail flag vs).getLast? = (vs.filterMap goParseFloat).getLast? := by
  intro vs
  induction vs with
  | nil => intro flag; rfl
  | cons v vs ih =>
    intro flag
    cases hA : goAtoi v with
    | some n =>
      have hF := parseAgree hA
      have h2 : (v :: vs).filterMap goParseFloat = (n : ℚ) :: vs.filterMap goParseFloat := by
        simp [List.filterMap_cons, hF]
      by_cases hnil : vs.filterMap goParseFloat = []
      · have ht : numericTail flag vs = [] := (numericTail_eq_nil_iff vs flag).2 hnil
        cases flag <;> simp [numericTail, hA, hF, h2, ht, hnil]
      · have ht : ¬numericTail flag vs = [] := by
          rw [numericTail_eq_nil_iff vs flag]
          exact hnil
        have h1 : numericTail flag (v :: vs)
            = ((n : ℚ) :: (if flag then [] else [(n : ℚ)])) ++ numericTail flag vs := by
          cases flag <;> simp [numericTail, hA, hF]
        rw [h1, getLast?_append_ne_nil _ _ ht, h2,
          show ((n : ℚ) :: vs.filterMap goParseFloat)
            = [(n : ℚ)] ++ vs.filterMap goParseFloat from rfl,
          getLast?_append_ne_nil _ _ hnil]
        exact ih flag
    | none =>
      cases hF : goParseFloat v with
      | some q =>
        have h2 : (v :: vs).filterMap goParseFloat = q :: vs.filterMap goParseFloat := by
          simp [List.filterMap_cons, hF]
        by_cases hnil : vs.filterMap goParseFloat = []
        · have ht : numericTail false vs = [] := (numericTail_eq_nil_iff vs false).2 hnil
          simp [numericTail, hA, hF, h2, ht, hnil]
        · have ht : ¬numericTail false vs = [] := by
            rw [numericTail_eq_nil_iff vs false]
            exact hnil
          have h1 : numericTail flag (v :: vs) = [q] ++ numericTail false vs := by
            simp [numericTail, hA, hF]
          rw [h1, getLast?_append_ne_nil _ _ ht, h2,
            show (q :: vs.filterMap goParseFloat)
              = [q] ++ vs.filterMap goParseFloat from rfl,
            getLast?_append_ne_nil _ _ hnil]
          exact ih false
      | none =>
        have h2 : (v :: vs).filterMap goParseFloat = vs.filterMap goParseFloat := by
          simp [List.filterMap_cons, hF]
        have h1 : numericTail flag (v :: vs) = numericTail false vs := by
          simp [numericTail, hA, hF]
        rw [h1, h2]
        exact ih false

theorem foldl_slot_getLastD (l : List ℚ) : ∀ i : ℚ,
    l.foldl (fun s v => if (if v < s then v else s) < v then v else if v < s then v else s) i
      = l.getLastD i := by
  induction l with
  | nil => intro i; rfl
  | cons v l ih =>
    intro i
    rw [List.foldl_cons, List.getLastD_cons]
    have hstep : (if (if v < i then v else i) < v then v else if v < i then v else i) = v := by
      rcases lt_trichotomy v i with hlt | heq | hgt
      · simp [hlt, lt_irrefl]
      · subst heq
        simp [lt_irrefl]
      · simp [(not_lt.2 (le_of_lt hgt) : ¬v < i), hgt]
    rw [hstep]
    exact ih v

theorem getLast?_cons_getLastD : ∀ (qs : List ℚ) (q : ℚ),
    (q :: qs).getLast? = some ((q :: qs).getLastD q) := by
  intro qs
  induction qs with
  | nil => intro q; rfl
  | cons v qs ih =>
    intro q
    simp only [List.getLast?_cons_cons, List.getLastD_cons, ih v]

set_option maxHeartbeats 1600000 in
theorem typeDetermine_core_indep (name : String) (values : List String) (nc : Nat)
    (o1 o2 : List String) :
    coreOf (typeDetermine name values nc o1) = coreOf (typeDetermine name values nc o2) := by
  simp only [typeDetermine]
  split_ifs <;> rfl

set_option maxHeartbeats 1600000 in
theorem typeDetermine_sqlType_indep (n1 n2 : String) (values : List String) (nc1 nc2 : Nat)
    (o1 o2 : List String) :
    (typeDetermine n1 values nc1 o1).sqlType = (typeDetermine n2 values nc2 o2).sqlType := by
  simp only [typeDetermine]
  split_ifs <;> rfl

set_option maxHeartbeats 1600000 in
theorem typeDetermine_sqlType_eq_map (name : String) (values : List String) (nc : Nat)
    (o : List String) :
    (typeDetermine name values nc o).sqlType
      = sqlTypeMap (typeDetermine name values nc o).dataType := by
  simp only [typeDetermine]
  split_ifs <;> rfl

theorem inferAdv_core_indep (data : List (List String)) (idx : Nat) (name : String)
    (o1 o2 : List String) :
    coreOf (inferColumnTypeAdvanced data idx name o1)
      = coreOf (inferColumnTypeAdvanced data idx name o2) := by
  unfold inferColumnTypeAdvanced
  split_ifs
  · rfl
  · exact typeDetermine_core_indep name _ _ o1 o2

theorem inferAdv_sqlType_indep (data : List (List String)) (idx : Nat) (n1 n2 : String)
    (o1 o2 : List String) :
    (inferColumnTypeAdvanced data idx n1 o1).sqlType
      = (inferColumnTypeAdvanced data idx n2 o2).sqlType := by
  unfold inferColumnTypeAdvanced
  split_ifs
  · rfl
  · exact typeDetermine_sqlType_indep n1 n2 _ _ _ o1 o2

theorem inferAdv_sqlType_eq_map (data : List (List String)) (idx : Nat) (name : String)
    (o : List String) :
    (inferColumnTypeAdvanced data idx name o).sqlType
      = sqlTypeMap (inferColumnTypeAdvanced data idx name o).dataType := by
  unfold inferColumnTypeAdvanced
  split_ifs
  · rfl
  · exact typeDetermine_sqlType_eq_map name _ _ o

theorem sampleFold_len_le (data : List (List String)) (ci : Nat) (idxs : List Nat) :
    ∀ st : SampleState, st.values.length ≤ maxSampleSize →
      ((idxs.foldl (sampleStep data ci) st).values.length ≤ maxSampleSize) := by
  induction idxs with
  | nil => intro st h; exact h
  | cons i idxs ih =>
    intro st h
    rw [List.foldl_cons]
    apply ih
    simp only [sampleStep]
    split_ifs <;>
      (try simp only [List.length_append, List.length_cons, List.length_nil]) <;>
      omega

theorem sampleColumn_len_le (data : List (List String)) (ci : Nat) :
    (sampleColumn data ci).values.length ≤ maxSampleSize := by
  simp only [sampleColumn]
  split_ifs <;> exact sampleFold_len_le data ci _ _ (by simp)

theorem insertBatches_noFail (numCols : Nat) :
    ∀ (n : Nat) (rows : List (List String)) (idx : Nat), rows.length ≤ n →
      insertBatches numCols noFailOracle idx rows = (rows.map (toSqlRow numCols), true) := by
  intro n
  induction n with
  | zero =>
    intro rows idx h
    have : rows = [] := List.eq_nil_of_length_eq_zero (Nat.le_zero.1 h)
    subst this; simp [insertBatches]
  | succ n ih =>
    intro rows idx h
    match rows with
    | [] => simp [insertBatches]
    | x :: xs =>
      rw [insertBatches]
      have hok : execRowsOk noFailOracle idx ((x :: xs).take 1000) = true := by
        simp [execRowsOk, noFailOracle]
      rw [if_pos hok]
      rw [ih ((x :: xs).drop 1000) (idx + ((x :: xs).take 1000).length) (by
        simp only [List.length_drop, List.length_cons]
        simp only [List.length_cons] at h
        omega)]
      simp only []
      rw [← List.map_append, List.take_append_drop]

theorem execRowsOk_false (f : Nat → Bool) (idx j : Nat) (batch : List (List String))
    (hj : j < batch.length) (hf : f (idx + j) = true) :
    execRowsOk f idx batch = false := by
  unfold execRowsOk
  rw [List.all_eq_false]
  exact ⟨j, List.mem_range.2 hj, by simp [hf]⟩

theorem execRowsOk_true (f : Nat → Bool) (idx : Nat) (batch : List (List String))
    (hf : ∀ j < batch.length, f (idx + j) = false) :
    execRowsOk f idx batch = true := by
  unfold execRowsOk
  rw [List.all_eq_true]
  intro j hj
  simp [hf j (List.mem_range.1 hj)]

theorem insertBatches_failAt (numCols : Nat) (r : Nat) :
    ∀ (n : Nat) (rows : List (List String)) (idx : Nat),
      idx ≤ r → r < idx + rows.length → rows.length ≤ n →
      insertBatches numCols (fun i => decide (i = r)) idx rows
        = ((rows.take (1000 * ((r - idx) / 1000))).map (toSqlRow numCols), false) := by
  intro n
  induction n with
  | zero =>
    intro rows idx h1 h2 h3
    have : rows = [] := List.eq_nil_of_length_eq_zero (Nat.le_zero.1 h3)
    subst this
    simp at h2
    omega
  | succ n ih =>
    intro rows idx h1 h2 h3
    match rows with
    | [] =>
      simp at h2
      omega
    | x :: xs =>
      rw [insertBatches]
      have hblen : ((x :: xs).take 1000).length = min 1000 (x :: xs).length :=
        List.length_take 1000 (x :: xs)
      by_cases hc : r - idx < 1000
      · have hfail : execRowsOk (fun i => decide (i = r)) idx ((x :: xs).take 1000) = false := by
          apply execRowsOk_false _ _ (r - idx)
          · rw [hblen]
            have : r - idx < (x :: xs).length := by omega
            omega
          · simp
            omega
        rw [if_neg (show ¬(execRowsOk (fun i => decide (i = r)) idx ((x :: xs).take 1000)
            = true) from by rw [hfail]; decide)]
        have : (r - idx) / 1000 = 0 := Nat.div_eq_of_lt hc
        rw [this]
        simp
      · push_neg at hc
        have hok : execRowsOk (fun i => decide (i = r)) idx ((x :: xs).take 1000) = true := by
          apply execRowsOk_true
          intro j hj
          rw [hblen] at hj
          simp
          omega
        rw [if_pos hok]
        have hlen1000 : ((x :: xs).take 1000).length = 1000 := by
          rw [hblen]
          have : r - idx < (x :: xs).length := by omega
          omega
        rw [hlen1000]
        rw [ih ((x :: xs).drop 1000) (idx + 1000) (by omega)
          (by simp only [List.length_drop]; omega)
          (by simp only [List.length_drop, List.length_cons]
              simp only [List.length_cons] at h3
              omega)]
        simp only []
        have harith : r - (idx + 1000) = r - idx - 1000 := by omega
        rw [harith]
        have hdiv : (r - idx) / 1000 = (r - idx - 1000) / 1000 + 1 :=
          Nat.div_eq_sub_div (by omega) hc
        rw [hdiv, Nat.mul_add, Nat.mul_one, Nat.add_comm (1000 * ((r - idx - 1000) / 1000)) 1000,
          List.take_add, List.map_append]

set_option maxHeartbeats 1600000 in
theorem typeDetermine_topValues_shape (name : String) (values : List String) (nc : Nat)
    (order : List String) :
    (typeDetermine name values nc order).topValues.length ≤ 10 ∧
      List.Pairwise (fun a b => b.count ≤ a.count)
        (typeDetermine name values nc order).topValues := by
  have key : ∀ L : List (String × Nat),
      (((exchSort L).take 10).map (fun p => ValueCount.mk p.1 p.2)).length ≤ 10 ∧
        List.Pairwise (fun a b => b.count ≤ a.count)
          (((exchSort L).take 10).map (fun p => ValueCount.mk p.1 p.2)) := by
    intro L
    constructor
    · rw [List.length_map, List.length_take]
      omega
    · rw [List.pairwise_map]
      exact (exchSort_sorted L).sublist (List.take_sublist 10 (exchSort L))
  simp only [typeDetermine]
  split_ifs <;>
    first
      | exact key _
      | exact ⟨by simp [emptyMetadata], by simp [emptyMetadata]⟩

set_option maxRecDepth 8192 in
/-- C6: the claim is right about the mean but wrong about what the
code reports for std: for the sample values 2,4,4,4,5,5,7,9 the code
reports mean 5 but std 39/8 = 4.875, not the claimed 32/8 = 4.
Min and Max are pointers to the SAME slice cell numericValues[0]; the
min/max loop overwrites that cell until it holds the last value 9
(also reported as both min and max), and the variance loop then
re-reads the clobbered array, summing (9-5)^2 for the first slot in
place of (2-5)^2: 16+1+1+1+0+0+4+16 = 39, divided by N = 8.  The
divide-by-N convention itself (not N-1) is as claimed. -/
theorem c6_std_aliasing_bug : ∀ order : List String,
    (inferColumnTypeAdvanced [["2"], ["4"], ["4"], ["4"], ["5"], ["5"], ["7"], ["9"]]
        0 "v" order).mean? = some 5
    ∧ (inferColumnTypeAdvanced [["2"], ["4"], ["4"], ["4"], ["5"], ["5"], ["7"], ["9"]]
        0 "v" order).std? = some ((39 : ℚ) / 8)
    ∧ (inferColumnTypeAdvanced [["2"], ["4"], ["4"], ["4"], ["5"], ["5"], ["7"], ["9"]]
        0 "v" order).min? = some 9
    ∧ (inferColumnTypeAdvanced [["2"], ["4"], ["4"], ["4"], ["5"], ["5"], ["7"], ["9"]]
        0 "v" order).max? = some 9
    ∧ ((39 : ℚ) / 8) ≠ 32 / 8 ∧ ((32 : ℚ) / 8) = 4 := by
  intro order
  have h := inferAdv_core_indep [["2"], ["4"], ["4"], ["4"], ["5"], ["5"], ["7"], ["9"]]
    0 "v" order ["2", "4", "5", "7", "9"]
  have hm : (inferColumnTypeAdvanced [["2"], ["4"], ["4"], ["4"], ["5"], ["5"], ["7"], ["9"]]
      0 "v" order).mean?
      = (inferColumnTypeAdvanced [["2"], ["4"], ["4"], ["4"], ["5"], ["5"], ["7"], ["9"]]
        0 "v" ["2", "4", "5", "7", "9"]).mean? := congrArg ColumnCore.mean? h
  have hs : (inferColumnTypeAdvanced [["2"], ["4"], ["4"], ["4"], ["5"], ["5"], ["7"], ["9"]]
      0 "v" order).std?
      = (inferColumnTypeAdvanced [["2"], ["4"], ["4"], ["4"], ["5"], ["5"], ["7"], ["9"]]
        0 "v" ["2", "4", "5", "7", "9"]).std? := congrArg ColumnCore.std? h
  have hmn : (inferColumnTypeAdvanced [["2"], ["4"], ["4"], ["4"], ["5"], ["5"], ["7"], ["9"]]
      0 "v" order).min?
      = (inferColumnTypeAdvanced [["2"], ["4"], ["4"], ["4"], ["5"], ["5"], ["7"], ["9"]]
        0 "v" ["2", "4", "5", "7", "9"]).min? := congrArg ColumnCore.min? h
  have hmx : (inferColumnTypeAdvanced [["2"], ["4"], ["4"], ["4"], ["5"], ["5"], ["7"], ["9"]]
      0 "v" order).max?
      = (inferColumnTypeAdvanced [["2"], ["4"], ["4"], ["4"], ["5"], ["5"], ["7"], ["9"]]
        0 "v" ["2", "4", "5", "7", "9"]).max? := congrArg ColumnCore.max? h
  rw [hm, hs, hmn, hmx]
  refine ⟨by with_unfolding_all rfl, by with_unfolding_all rfl, by with_unfolding_all rfl,
    by with_unfolding_all rfl, by norm_num, by norm_num⟩

set_option maxRecDepth 8192 in
/-- C8: a column whose sampled values are TRUE, FALSE, 1, 0 classifies
as BOOLEAN with isBoolean set: precedence rule 1 (allBooleans and at
most 10 distinct values) fires before the integer rule, even though
1 and 0 are also valid integers. -/
theorem c8_boolean_precedence : ∀ order : List String,
    (inferColumnTypeAdvanced [["TRUE"], ["FALSE"], ["1"], ["0"]] 0 "flag" order).dataType
        = "BOOLEAN"
    ∧ (inferColumnTypeAdvanced [["TRUE"], ["FALSE"], ["1"], ["0"]] 0 "flag" order).isBoolean
        = true := by
  intro order
  have h := inferAdv_core_indep [["TRUE"], ["FALSE"], ["1"], ["0"]] 0 "flag" order
    ["TRUE", "FALSE", "1", "0"]
  have hd : (inferColumnTypeAdvanced [["TRUE"], ["FALSE"], ["1"], ["0"]] 0 "flag" order).dataType
      = (inferColumnTypeAdvanced [["TRUE"], ["FALSE"], ["1"], ["0"]] 0 "flag"
        ["TRUE", "FALSE", "1", "0"]).dataType := congrArg ColumnCore.dataType h
  have hb : (inferColumnTypeAdvanced [["TRUE"], ["FALSE"], ["1"], ["0"]] 0 "flag" order).isBoolean
      = (inferColumnTypeAdvanced [["TRUE"], ["FALSE"], ["1"], ["0"]] 0 "flag"
        ["TRUE", "FALSE", "1", "0"]).isBoolean := congrArg ColumnCore.isBoolean h
  rw [hd, hb]
  exact ⟨by with_unfolding_all rfl, by with_unfolding_all rfl⟩

set_option maxRecDepth 8192 in
/-- C10: the insert path converts a cell to SQL NULL exactly when the
cell is the empty string, so the whitespace cell " " is inserted
verbatim, while the sampler trims it, counts it in nullCount and
marks the column nullable - hence the stored null count (0) is
smaller than the reported nullCount (1). -/
theorem c10_whitespace_null_mismatch :
    (∀ val : String, toSqlCell val = none ↔ val = "")
    ∧ toSqlRow 1 [" "] = [some " "]
    ∧ (∀ order : List String,
        (inferColumnTypeAdvanced [[" "]] 0 "c" order).nullCount = 1
        ∧ (inferColumnTypeAdvanced [[" "]] 0 "c" order).nullable = true)
    ∧ (toSqlRow 1 [" "]).countP (fun c => c.isNone) = 0 := by
  refine ⟨?_, by with_unfolding_all rfl, ?_, by with_unfolding_all rfl⟩
  · intro val
    unfold toSqlCell
    split <;> simp_all
  · intro order
    have h := inferAdv_core_indep [[" "]] 0 "c" order [" "]
    have hn : (inferColumnTypeAdvanced [[" "]] 0 "c" order).nullCount
        = (inferColumnTypeAdvanced [[" "]] 0 "c" [" "]).nullCount :=
      congrArg ColumnCore.nullCount h
    have hb : (inferColumnTypeAdvanced [[" "]] 0 "c" order).nullable
        = (inferColumnTypeAdvanced [[" "]] 0 "c" [" "]).nullable :=
      congrArg ColumnCore.nullable h
    rw [hn, hb]
    exact ⟨by with_unfolding_all rfl, by with_unfolding_all rfl⟩

set_option maxRecDepth 8192 in
/-- C2 counterexample: for the sample A,A,B,B,C,C,C the frequency map
holds A:2, B:2, C:3 with first-seen (insertion) order A, B, C.  Under
that very iteration order the i/j exchange sort swaps C to the front
ACROSS the tied pair, producing C,B,A - the first-seen element A of
the tied pair comes LAST, not first as the claim states (the sort is
not stable, and Go map iteration order is not insertion order to
begin with). -/
theorem c2_counterexample :
    (inferColumnTypeAdvanced [["A"], ["A"], ["B"], ["B"], ["C"], ["C"], ["C"]] 0 "c"
        ["A", "B", "C"]).topValues
      = [⟨"C", 3⟩, ⟨"B", 2⟩, ⟨"A", 2⟩]
    ∧ ([⟨"C", 3⟩, ⟨"B", 2⟩, ⟨"A", 2⟩] : List ValueCount)
      ≠ [⟨"C", 3⟩, ⟨"A", 2⟩, ⟨"B", 2⟩] := by
  exact ⟨by with_unfolding_all rfl, by decide⟩

set_option maxRecDepth 8192 in
/-- C2 amended: topValues always holds at most 10 pairs sorted by
count descending, but tie order is whatever the exchange sort leaves
of the map iteration order, not first-seen order; the claimed example
a,b,a,c,b,a (all counts distinct) does give (a,3),(b,2),(c,1) under
every possible map iteration order. -/
theorem c2_amended :
    (∀ (name : String) (values : List String) (nc : Nat) (order : List String),
        (typeDetermine name values nc order).topValues.length ≤ 10
        ∧ List.Pairwise (fun a b => b.count ≤ a.count)
            (typeDetermine name values nc order).topValues)
    ∧ (∀ order : List String, List.Perm order ["a", "b", "c"] →
        (inferColumnTypeAdvanced [["a"], ["b"], ["a"], ["c"], ["b"], ["a"]] 0 "c"
            order).topValues
          = [⟨"a", 3⟩, ⟨"b", 2⟩, ⟨"c", 1⟩]) := by
  refine ⟨fun name values nc order => typeDetermine_topValues_shape name values nc order, ?_⟩
  intro order hperm
  have hall : ∀ o ∈ (["a", "b", "c"] : List String).permutations,
      (inferColumnTypeAdvanced [["a"], ["b"], ["a"], ["c"], ["b"], ["a"]] 0 "c"
          o).topValues
        = [⟨"a", 3⟩, ⟨"b", 2⟩, ⟨"c", 1⟩] :=
    of_decide_eq_true (by with_unfolding_all rfl)
  exact hall order (List.mem_permutations.2 hperm)

set_option maxRecDepth 8192 in
/-- C2 amended witness at the insertion order itself. -/
theorem c2_amended_witness :
    List.Perm (["a", "b", "c"] : List String) ["a", "b", "c"]
    ∧ (inferColumnTypeAdvanced [["a"], ["b"], ["a"], ["c"], ["b"], ["a"]] 0 "c"
        ["a", "b", "c"]).topValues
      = [⟨"a", 3⟩, ⟨"b", 2⟩, ⟨"c", 1⟩] :=
  ⟨List.Perm.refl _, c2_amended.2 ["a", "b", "c"] (List.Perm.refl _)⟩

set_option maxHeartbeats 1600000 in
theorem typeDetermine_stats (name : String) (values : List String) (nc : Nat)
    (order : List String) (hne : ¬values = []) (q : ℚ) (qs : List ℚ)
    (hnum : (inferAll values).numericValues = q :: qs) :
    (typeDetermine name values nc order).min?
        = some ((q :: qs).foldl
            (fun s v => if (if v < s then v else s) < v then v else if v < s then v else s) q)
    ∧ (typeDetermine name values nc order).max?
        = some ((q :: qs).foldl
            (fun s v => if (if v < s then v else s) < v then v else if v < s then v else s) q)
    ∧ (typeDetermine name values nc order).mean?
        = some ((q :: qs).foldl (fun a v => a + v) 0 / ((q :: qs).length : ℚ)) := by
  simp only [typeDetermine, if_neg hne, hnum]
  split_ifs <;> exact ⟨rfl, rfl, rfl⟩

set_option maxRecDepth 8192 in
/-- C3 counterexample: for the sample 1.5, 2 the numeric-parseable
multiset is (3/2, 2), whose arithmetic mean is 7/4 and whose minimum
is 3/2; but the loop appends the integer 2 TWICE (once in the integer
check, once in the float check, because allIntegers already became
false at 1.5), so the code reports mean (3/2 + 2 + 2)/3 = 11/6, and
because Min and Max alias the same mutated slice cell both report the
LAST numeric value 2 - so min is 2, not the true minimum 3/2. -/
theorem c3_counterexample :
    (["1.5", "2"] : List String).filterMap goParseFloat = [(3 : ℚ) / 2, 2]
    ∧ (typeDetermine "c" ["1.5", "2"] 0 ["1.5", "2"]).mean? = some ((11 : ℚ) / 6)
    ∧ ((3 : ℚ) / 2 + 2) / 2 = 7 / 4
    ∧ ((11 : ℚ) / 6) ≠ 7 / 4
    ∧ (typeDetermine "c" ["1.5", "2"] 0 ["1.5", "2"]).min? = some 2
    ∧ (typeDetermine "c" ["1.5", "2"] 0 ["1.5", "2"]).max? = some 2
    ∧ (2 : ℚ) ≠ 3 / 2 := by
  refine ⟨by with_unfolding_all rfl, by with_unfolding_all rfl, by norm_num, by norm_num,
    by with_unfolding_all rfl, by with_unfolding_all rfl, by norm_num⟩

/-- C3 amended: min and max both report the numeric value of the LAST
numeric-parseable value of the sample - not the extrema: the code
sets Min and Max to the same pointer into numericValues[0], and the
min/max loop overwrites that one cell until it holds the last numeric
value.  The mean is the arithmetic mean of the multiset that holds
each numeric-parseable value once PLUS a second copy of every
integer-parseable value occurring strictly after the first
non-integer value (those are appended twice by the loop). -/
theorem c3_amended (name : String) (values : List String) (nc : Nat) (order : List String)
    (h : values.filterMap goParseFloat ≠ []) :
    (∃ lst, (values.filterMap goParseFloat).getLast? = some lst
        ∧ (typeDetermine name values nc order).min? = some lst
        ∧ (typeDetermine name values nc order).max? = some lst)
    ∧ (typeDetermine name values nc order).mean?
        = some ((values.filterMap goParseFloat
              ++ (afterFirstNonInt values).filterMap atoiQ).sum
            / ((values.filterMap goParseFloat
              ++ (afterFirstNonInt values).filterMap atoiQ).length : ℚ)) := by
  have hne : ¬values = [] := by
    intro hv
    exact h (by simp [hv])
  have hperm := numericTail_true_perm values
  have hgl := numericTail_getLast values true
  rw [← inferAll_numeric values] at hperm hgl
  match hnum : (inferAll values).numericValues with
  | [] =>
    rw [hnum] at hperm
    have hnil : values.filterMap goParseFloat ++ (afterFirstNonInt values).filterMap atoiQ
        = [] := hperm.symm.eq_nil
    exact absurd (List.append_eq_nil.1 hnil).1 h
  | q :: qs =>
    rcases typeDetermine_stats name values nc order hne q qs hnum with ⟨hmin, hmax, hmean⟩
    rw [hnum] at hperm hgl
    constructor
    · refine ⟨(q :: qs).getLastD q, ?_, ?_, ?_⟩
      · rw [← hgl]
        exact getLast?_cons_getLastD qs q
      · rw [hmin, foldl_slot_getLastD (q :: qs) q]
      · rw [hmax, foldl_slot_getLastD (q :: qs) q]
    · rw [hmean]
      have h1 : (q :: qs).foldl (fun a v => a + v) 0
          = (values.filterMap goParseFloat
              ++ (afterFirstNonInt values).filterMap atoiQ).sum := by
        rw [← hperm.sum_eq, List.sum_eq_foldl]
      have h2 : (((q :: qs).length : Nat) : ℚ)
          = (((values.filterMap goParseFloat
              ++ (afterFirstNonInt values).filterMap atoiQ).length : Nat) : ℚ) := by
        rw [hperm.length_eq]
      rw [h1, h2]

set_option maxRecDepth 8192 in
/-- C3 amended witness at the sample 1.5, 2. -/
theorem c3_amended_witness :
    ((["1.5", "2"] : List String).filterMap goParseFloat ≠ [])
    ∧ ((∃ lst, ((["1.5", "2"] : List String).filterMap goParseFloat).getLast? = some lst
          ∧ (typeDetermine "c" ["1.5", "2"] 0 ["1.5", "2"]).min? = some lst
          ∧ (typeDetermine "c" ["1.5", "2"] 0 ["1.5", "2"]).max? = some lst)
      ∧ (typeDetermine "c" ["1.5", "2"] 0 ["1.5", "2"]).mean?
          = some (((["1.5", "2"] : List String).filterMap goParseFloat
                ++ (afterFirstNonInt ["1.5", "2"]).filterMap atoiQ).sum
              / (((["1.5", "2"] : List String).filterMap goParseFloat
                ++ (afterFirstNonInt ["1.5", "2"]).filterMap atoiQ).length : ℚ))) := by
  have hfm : (["1.5", "2"] : List String).filterMap goParseFloat = [(3 : ℚ) / 2, 2] := by
    with_unfolding_all rfl
  have hne : (["1.5", "2"] : List String).filterMap goParseFloat ≠ [] := by
    rw [hfm]
    simp
  exact ⟨hne, c3_amended "c" ["1.5", "2"] 0 ["1.5", "2"] hne⟩

/-- C9: the CREATE TABLE column definitions list one entry per source
header, in source order, each the quoted header followed by the
SqlType of the ColumnMetadata inferred for that same column (whatever
name and map-iteration order the metadata run used), and that SqlType
is always the fixed mapping of the inferred dataType: INTEGER to
INTEGER, FLOAT to DOUBLE, BOOLEAN to BOOLEAN, DATE to DATE and TEXT
(categorical included) to VARCHAR. -/
theorem c9_schema_mapping :
    (∀ (headers : List String) (data : List (List String))
        (orders1 orders2 : Nat → List String),
      createTableColumnDefs headers data orders1
        = headers.enum.map (fun p =>
            "\"" ++ p.2 ++ "\" "
              ++ (inferColumnTypeAdvanced data p.1 p.2 (orders2 p.1)).sqlType))
    ∧ (∀ (data : List (List String)) (idx : Nat) (name : String) (order : List String),
        (inferColumnTypeAdvanced data idx name order).sqlType
          = sqlTypeMap (inferColumnTypeAdvanced data idx name order).dataType) := by
  refine ⟨?_, fun data idx name order => inferAdv_sqlType_eq_map data idx name order⟩
  intro headers data o1 o2
  unfold createTableColumnDefs
  apply List.map_congr_left
  intro p hp
  unfold inferColumnType
  rw [inferAdv_sqlType_indep data p.1 "" p.2 (o1 p.1) (o2 p.1)]

/-- C5: rows load in batches of 1000, one transaction per batch; if
the storage driver fails the insert of row r (and only that row),
every full batch before the one containing r stays committed, the
failing batch contributes nothing (its partial writes are rolled
back), later batches are never attempted, and createTable returns the
error - the table keeps exactly the first 1000*(r/1000) rows. -/
theorem c5_batch_failure (tableName : String) (headers : List String)
    (data : List (List String)) (r : Nat) (db : DbState)
    (hr : r < data.length) :
    createTableModel tableName headers data (fun i => decide (i = r)) db
      = ((tableName, (data.take (1000 * (r / 1000))).map (toSqlRow headers.length))
          :: dropTable db tableName, false) := by
  simp only [createTableModel]
  rw [insertBatches_failAt headers.length r data.length data 0 (Nat.zero_le r)
    (by simpa using hr) (le_refl _)]
  rw [Nat.sub_zero]

/-- C5 witness: 2500 rows with a forced failure at row 1500 commit
exactly rows 0 through 999 (batch 1) and report failure. -/
theorem c5_batch_failure_witness :
    1500 < c5Data.length
    ∧ createTableModel "t" ["c"] c5Data (fun i => decide (i = 1500)) []
      = (("t", (c5Data.take (1000 * (1500 / 1000))).map (toSqlRow (["c"] : List String).length))
          :: dropTable [] "t", false)
    ∧ 1000 * (1500 / 1000) = 1000 := by
  have hr : 1500 < c5Data.length := by
    unfold c5Data
    rw [List.length_replicate]
    omega
  exact ⟨hr, c5_batch_failure "t" ["c"] c5Data 1500 [] hr, by norm_num⟩

set_option maxHeartbeats 1600000 in
theorem typeDetermine_nullCount (name : String) (values : List String) (nc : Nat)
    (order : List String) :
    (typeDetermine name values nc order).nullCount = nc := by
  simp only [typeDetermine]
  split_ifs <;> rfl

theorem inferAdv_nullCount (data : List (List String)) (idx : Nat) (name : String)
    (order : List String) (h : ¬data = []) :
    (inferColumnTypeAdvanced data idx name order).nullCount
      = (sampleColumn data idx).nullCount := by
  unfold inferColumnTypeAdvanced
  rw [if_neg h]
  exact typeDetermine_nullCount name _ _ order

theorem getD_replicate_lt (m n : Nat) (h : n < m) :
    (List.replicate m (["x"] : List String)).getD n [] = ["x"] := by
  induction m generalizing n with
  | zero => omega
  | succ m ih =>
    rw [List.replicate_succ]
    match n with
    | 0 => rfl
    | n + 1 =>
      rw [List.getD_cons_succ]
      exact ih n (by omega)

theorem c1row (i : Nat) (h1 : 1 ≤ i) (h2 : i ≤ 1000) : c1data.getD i [] = ["x"] := by
  unfold c1data
  match i, h1 with
  | i + 1, _ =>
    rw [List.singleton_append, List.getD_cons_succ]
    exact getD_replicate_lt 1000 i (by omega)

theorem countP_replicate_false (n : Nat) (a : List String) (p : List String → Bool)
    (h : p a = false) : (List.replicate n a).countP p = 0 := by
  induction n with
  | zero => simp
  | succ n ih => simp [List.replicate_succ, List.countP_cons, h, ih]

theorem sampleStep_collects (data : List (List String)) (st : SampleState) (i : Nat)
    (hcap : st.values.length < maxSampleSize)
    (hrow : data.getD i [] = ["x"]) :
    sampleStep data 0 st i = ⟨st.values ++ ["x"], st.nullCount⟩ := by
  simp only [sampleStep, hrow]
  rw [if_neg (by omega)]
  rw [if_neg (by decide : ¬((["x"] : List String).length ≤ 0))]
  rw [show goTrimSpace ((["x"] : List String).getD 0 "") = "x" from by with_unfolding_all rfl]
  rw [if_neg (by decide : ¬("x" : String) = "")]

theorem c1fold : ∀ k : Nat, k ≤ 1000 →
    (List.range (k + 1)).foldl (sampleStep c1data 0) ⟨[], 0⟩
      = ⟨List.replicate k "x", 1⟩ := by
  intro k
  induction k with
  | zero =>
    intro _
    with_unfolding_all rfl
  | succ k ih =>
    intro hk
    rw [List.range_succ, List.foldl_append, ih (by omega), List.foldl_cons, List.foldl_nil]
    rw [sampleStep_collects c1data ⟨List.replicate k "x", 1⟩ (k + 1)
      (by simp only [List.length_replicate]; unfold maxSampleSize; omega)
      (c1row (k + 1) (by omega) (by omega))]
    rw [← List.replicate_succ' k "x"]

theorem c1_sample_result : sampleColumn c1data 0 = ⟨List.replicate 1000 "x", 2⟩ := by
  have hlen : c1data.length = 1001 := by
    unfold c1data
    rw [List.length_append, List.length_replicate]
    rfl
  simp only [sampleColumn, hlen]
  rw [if_pos (by unfold maxSampleSize; omega)]
  have hstep : (if maxSampleSize < 1001 then 1001 / maxSampleSize else 1) = 1 := by
    unfold maxSampleSize
    norm_num
  rw [hstep]
  have hidx : sampleIdxs 1001 1 = List.range 1001 := by
    unfold sampleIdxs
    norm_num
  rw [hidx]
  rw [show (1001 : Nat) = 1000 + 1 from rfl, c1fold 1000 (le_refl 1000)]
  have hcount : c1data.countP (rowIsNull 0) = 1 := by
    unfold c1data
    rw [List.countP_append]
    rw [countP_replicate_false 1000 ["x"] (rowIsNull 0) (by with_unfolding_all rfl)]
    with_unfolding_all rfl
  rw [hcount]

/-- C1: the sampling pass never feeds the classifier more than 1000
values - but the reported nullCount is NOT the exact null count when
the input exceeds 1000 rows: on the 1001-row input whose only null
cell is row 0, the sample pass counts that null once and the
follow-up full scan (which starts back at row 0, despite its comment
about remaining data) counts it again, so the code reports 2 while
the exact count over the entire column is 1.  This contradicts both
the code comment and the spec sentence that the second pass yields an
exact null count. -/
theorem c1_nullcount_bug :
    (∀ (data : List (List String)) (ci : Nat),
        (sampleColumn data ci).values.length ≤ maxSampleSize)
    ∧ 1000 < c1data.length
    ∧ (∀ order : List String,
        (inferColumnTypeAdvanced c1data 0 "c" order).nullCount = 2)
    ∧ specExactNullCount c1data 0 = 1 := by
  refine ⟨sampleColumn_len_le, ?_, ?_, ?_⟩
  · unfold c1data
    rw [List.length_append, List.length_replicate, List.length_singleton]
    omega
  · intro order
    have hne : ¬c1data = [] := by
      intro h
      have hl := congrArg List.length h
      unfold c1data at hl
      rw [List.length_append, List.length_replicate, List.length_singleton,
        List.length_nil] at hl
      omega
    rw [inferAdv_nullCount c1data 0 "c" order hne]
    rw [c1_sample_result]
  · unfold specExactNullCount c1data
    rw [List.countP_append]
    rw [countP_replicate_false 1000 ["x"] (rowIsNull 0) (by with_unfolding_all rfl)]
    with_unfolding_all rfl

theorem inferStep_allBooleans (st : InferFlags) (v : String) :
    (inferStep st v).allBooleans
      = (st.allBooleans && booleanValues (goToLower (goTrimSpace v))) := by
  cases hA : goAtoi v <;> cases hF : goParseFloat v <;>
    simp only [inferStep, hA, hF] <;> split_ifs <;> simp_all

theorem inferStep_allFloats (st : InferFlags) (v : String) :
    (inferStep st v).allFloats = (st.allFloats && (goParseFloat v).isSome) := by
  cases hA : goAtoi v <;> cases hF : goParseFloat v <;>
    simp only [inferStep, hA, hF] <;> split_ifs <;> simp_all

theorem inferStep_allDates (st : InferFlags) (v : String) :
    (inferStep st v).allDates = (st.allDates && goIsDate v) := by
  cases hA : goAtoi v <;> cases hF : goParseFloat v <;>
    simp only [inferStep, hA, hF] <;> split_ifs <;> simp_all

theorem inferAll_flags (vs : List String) :
    (inferAll vs).allIntegers = vs.all (fun v => (goAtoi v).isSome)
    ∧ (inferAll vs).allFloats = vs.all (fun v => (goParseFloat v).isSome)
    ∧ (inferAll vs).allBooleans = vs.all (fun v => booleanValues (goToLower (goTrimSpace v)))
    ∧ (inferAll vs).allDates = vs.all goIsDate := by
  suffices h : ∀ st : InferFlags,
      (vs.foldl inferStep st).allIntegers = (st.allIntegers && vs.all (fun v => (goAtoi v).isSome))
      ∧ (vs.foldl inferStep st).allFloats
          = (st.allFloats && vs.all (fun v => (goParseFloat v).isSome))
      ∧ (vs.foldl inferStep st).allBooleans
          = (st.allBooleans && vs.all (fun v => booleanValues (goToLower (goTrimSpace v))))
      ∧ (vs.foldl inferStep st).allDates = (st.allDates && vs.all goIsDate) by
    have := h ⟨true, true, true, true, []⟩
    simpa [inferAll] using this
  induction vs with
  | nil => intro st; simp
  | cons v vs ih =>
    intro st
    rw [List.foldl_cons]
    rcases ih (inferStep st v) with ⟨h1, h2, h3, h4⟩
    rw [h1, h2, h3, h4, inferStep_allIntegers, inferStep_allFloats, inferStep_allBooleans,
      inferStep_allDates]
    simp [List.all_cons, Bool.and_assoc]

theorem bumpCount_keys (acc : List (String × Nat)) (v : String)
    (h : v ∈ acc.map Prod.fst) :
    (bumpCount acc v).map Prod.fst = acc.map Prod.fst := by
  induction acc with
  | nil => simp at h
  | cons p acc ih =>
    match p with
    | (k0, c) =>
      simp only [bumpCount]
      split_ifs with he
      · simp
      · rw [List.map_cons, List.map_cons, ih]
        rcases List.mem_cons.1 h with he2 | hm
        · exact absurd he2.symm he
        · exact hm

theorem foldl_bump_keys (x : String) : ∀ (n : Nat) (acc : List (String × Nat)),
    x ∈ acc.map Prod.fst →
    ((List.replicate n x).foldl bumpCount acc).map Prod.fst = acc.map Prod.fst := by
  intro n
  induction n with
  | zero => intro acc _; rfl
  | succ n ih =>
    intro acc h
    rw [List.replicate_succ, List.foldl_cons]
    rw [ih (bumpCount acc x) (by rw [bumpCount_keys acc x h]; exact h)]
    exact bumpCount_keys acc x h

theorem foldl_bump_length (x : String) (n : Nat) (acc : List (String × Nat))
    (h : x ∈ acc.map Prod.fst) :
    ((List.replicate n x).foldl bumpCount acc).length = acc.length := by
  have h2 := congrArg List.length (foldl_bump_keys x n acc h)
  rw [List.length_map, List.length_map] at h2
  exact h2

/-- C7: when every numeric, boolean and date rule fails, a column of
1000 sampled values with exactly 20 distinct values classifies as
categorical TEXT (the uniqueCount at most 20 disjunct holds, and with
ratio 0.02 the ratio disjunct as well), while a column with 21
distinct values whose unique ratio is at least 0.2 falls through to
free TEXT with isCategory false. -/
theorem c7_categorical_boundary
    (name1 : String) (values1 : List String) (nc1 : Nat) (o1 : List String)
    (name2 : String) (values2 : List String) (nc2 : Nat) (o2 : List String)
    (hlen1 : values1.length = 1000)
    (huc1 : (buildCounts values1).length = 20)
    (hB1 : (inferAll values1).allBooleans = false)
    (hI1 : (inferAll values1).allIntegers = false)
    (hF1 : (inferAll values1).allFloats = false)
    (hD1 : (inferAll values1).allDates = false)
    (hne2 : ¬values2 = [])
    (huc2 : (buildCounts values2).length = 21)
    (hrat : (1 : ℚ) / 5 ≤ ((buildCounts values2).length : ℚ) / (values2.length : ℚ))
    (hB2 : (inferAll values2).allBooleans = false)
    (hI2 : (inferAll values2).allIntegers = false)
    (hF2 : (inferAll values2).allFloats = false)
    (hD2 : (inferAll values2).allDates = false) :
    ((typeDetermine name1 values1 nc1 o1).isCategory = true
      ∧ (typeDetermine name1 values1 nc1 o1).dataType = "TEXT")
    ∧ ((typeDetermine name2 values2 nc2 o2).isCategory = false
      ∧ (typeDetermine name2 values2 nc2 o2).dataType = "TEXT") := by
  have hne1 : ¬values1 = [] := by
    intro h
    rw [h] at hlen1
    simp at hlen1
  constructor
  · have hcat : ((buildCounts values1).length : ℚ) / (values1.length : ℚ) < 1 / 5
        ∧ (buildCounts values1).length ≤ 50 ∨ (buildCounts values1).length ≤ 20 :=
      Or.inr (by rw [huc1])
    simp only [typeDetermine, if_neg hne1, hB1, hI1, hF1, hD1, Bool.false_and,
      Bool.false_eq_true, if_false, if_pos hcat]
    exact ⟨trivial, trivial⟩
  · have hnotcat : ¬(((buildCounts values2).length : ℚ) / (values2.length : ℚ) < 1 / 5
        ∧ (buildCounts values2).length ≤ 50 ∨ (buildCounts values2).length ≤ 20) := by
      intro hc
      rcases hc with ⟨hlt, _⟩ | hle
      · exact absurd hlt (not_lt_of_ge hrat)
      · rw [huc2] at hle
        omega
    simp only [typeDetermine, if_neg hne2, hB2, hI2, hF2, hD2, Bool.false_and,
      Bool.false_eq_true, if_false, if_neg hnotcat]
    exact ⟨rfl, rfl⟩

/-- C7 witness: column 1 is 1000 values with 20 distinct (the block
w0..w19 plus 980 repeats of w0), column 2 is 105 values with 21
distinct (v0..v20 plus 84 repeats of v0, ratio exactly 1/5); all
numeric, boolean and date rules fail for both. -/
theorem c7_categorical_boundary_witness :
    (c7values1.length = 1000
      ∧ (buildCounts c7values1).length = 20
      ∧ (inferAll c7values1).allBooleans = false
      ∧ (inferAll c7values1).allIntegers = false
      ∧ (inferAll c7values1).allFloats = false
      ∧ (inferAll c7values1).allDates = false
      ∧ ¬c7values2 = []
      ∧ (buildCounts c7values2).length = 21
      ∧ (1 : ℚ) / 5 ≤ ((buildCounts c7values2).length : ℚ) / (c7values2.length : ℚ)
      ∧ (inferAll c7values2).allBooleans = false
      ∧ (inferAll c7values2).allIntegers = false
      ∧ (inferAll c7values2).allFloats = false
      ∧ (inferAll c7values2).allDates = false)
    ∧ (((typeDetermine "cat" c7values1 0 c7block1).isCategory = true
        ∧ (typeDetermine "cat" c7values1 0 c7block1).dataType = "TEXT")
      ∧ ((typeDetermine "txt" c7values2 0 c7block2).isCategory = false
        ∧ (typeDetermine "txt" c7values2 0 c7block2).dataType = "TEXT")) := by
  have hlen1 : c7values1.length = 1000 := by
    unfold c7values1 c7block1
    rw [List.length_append, List.length_replicate, List.length_map, List.length_range]
  have huc1 : (buildCounts c7values1).length = 20 := by
    unfold buildCounts c7values1
    rw [List.foldl_append]
    rw [foldl_bump_length "w0" 980 (c7block1.foldl bumpCount [])
      (of_decide_eq_true (by with_unfolding_all rfl))]
    with_unfolding_all rfl
  rcases inferAll_flags c7values1 with ⟨hi1, hf1, hb1, hd1⟩
  have hB1 : (inferAll c7values1).allBooleans = false := by
    rw [hb1]
    unfold c7values1
    rw [List.all_append,
      show c7block1.all (fun v => booleanValues (goToLower (goTrimSpace v))) = false from by
        with_unfolding_all rfl]
    rfl
  have hI1 : (inferAll c7values1).allIntegers = false := by
    rw [hi1]
    unfold c7values1
    rw [List.all_append,
      show c7block1.all (fun v => (goAtoi v).isSome) = false from by
        with_unfolding_all rfl]
    rfl
  have hF1 : (inferAll c7values1).allFloats = false := by
    rw [hf1]
    unfold c7values1
    rw [List.all_append,
      show c7block1.all (fun v => (goParseFloat v).isSome) = false from by
        with_unfolding_all rfl]
    rfl
  have hD1 : (inferAll c7values1).allDates = false := by
    rw [hd1]
    unfold c7values1
    rw [List.all_append,
      show c7block1.all goIsDate = false from by with_unfolding_all rfl]
    rfl
  have hlen2 : c7values2.length = 105 := by
    unfold c7values2 c7block2
    rw [List.length_append, List.length_replicate, List.length_map, List.length_range]
  have hne2 : ¬c7values2 = [] := by
    intro h
    rw [h] at hlen2
    simp at hlen2
  have huc2 : (buildCounts c7values2).length = 21 := by
    unfold buildCounts c7values2
    rw [List.foldl_append]
    rw [foldl_bump_length "v0" 84 (c7block2.foldl bumpCount [])
      (of_decide_eq_true (by with_unfolding_all rfl))]
    with_unfolding_all rfl
  have hrat : (1 : ℚ) / 5 ≤ ((buildCounts c7values2).length : ℚ) / (c7values2.length : ℚ) := by
    rw [huc2, hlen2]
    norm_num
  rcases inferAll_flags c7values2 with ⟨hi2, hf2, hb2, hd2⟩
  have hB2 : (inferAll c7values2).allBooleans = false := by
    rw [hb2]
    unfold c7values2
    rw [List.all_append,
      show c7block2.all (fun v => booleanValues (goToLower (goTrimSpace v))) = false from by
        with_unfolding_all rfl]
    rfl
  have hI2 : (inferAll c7values2).allIntegers = false := by
    rw [hi2]
    unfold c7values2
    rw [List.all_append,
      show c7block2.all (fun v => (goAtoi v).isSome) = false from by
        with_unfolding_all rfl]
    rfl
  have hF2 : (inferAll c7values2).allFloats = false := by
    rw [hf2]
    unfold c7values2
    rw [List.all_append,
      show c7block2.all (fun v => (goParseFloat v).isSome) = false from by
        with_unfolding_all rfl]
    rfl
  have hD2 : (inferAll c7values2).allDates = false := by
    rw [hd2]
    unfold c7values2
    rw [List.all_append,
      show c7block2.all goIsDate = false from by with_unfolding_all rfl]
    rfl
  refine ⟨⟨hlen1, huc1, hB1, hI1, hF1, hD1, hne2, huc2, hrat, hB2, hI2, hF2, hD2⟩, ?_⟩
  exact c7_categorical_boundary "cat" c7values1 0 c7block1 "txt" c7values2 0 c7block2
    hlen1 huc1 hB1 hI1 hF1 hD1 hne2 huc2 hrat hB2 hI2 hF2 hD2

theorem colLine_map_congr : ∀ (c1 c2 : List ColumnMetadata),
    c1.map coreOf = c2.map coreOf → c1.map colSummaryLine = c2.map colSummaryLine := by
  intro c1
  induction c1 with
  | nil =>
    intro c2 h
    cases c2 with
    | nil => rfl
    | cons b c2 => simp at h
  | cons a c1 ih =>
    intro c2 h
    cases c2 with
    | nil => simp at h
    | cons b c2 =>
      simp only [List.map_cons, List.cons.injEq] at h ⊢
      have hc := h.1
      have hn : a.name = b.name := congrArg ColumnCore.name hc
      have hd : a.dataType = b.dataType := congrArg ColumnCore.dataType hc
      have hdesc : a.description = b.description := congrArg ColumnCore.description hc
      have hic : a.isCategory = b.isCategory := congrArg ColumnCore.isCategory hc
      have hsv : a.sampleValues = b.sampleValues := congrArg ColumnCore.sampleValues hc
      refine ⟨?_, ih c2 h.2⟩
      unfold colSummaryLine
      rw [hn, hd, hdesc, hic, hsv]

theorem schemaSummary_congr (c1 c2 : List ColumnMetadata)
    (h : c1.map coreOf = c2.map coreOf) :
    generateSchemaSummary c1 = generateSchemaSummary c2 := by
  unfold generateSchemaSummary
  have hlen : c1.length = c2.length := by
    have h2 := congrArg List.length h
    simpa using h2
  rw [hlen, colLine_map_congr c1 c2 h]

theorem rowCount_head (n : String) (rows : List (List (Option String))) (rest : DbState) :
    rowCount ((n, rows) :: rest) n = rows.length := by
  unfold rowCount
  rw [List.find?_cons_of_pos _ (by simp)]

set_option maxRecDepth 8192 in
/-- C4 counterexample: the same 7-row file uploaded twice to the same
table can yield DIFFERENT TableMetadata (timestamp aside): the column
has counts A:2, B:2, C:3, and the sorted topValues list depends on
the order in which Go happens to iterate the frequency map - two
legitimate iteration orders (both permutations of the keys) give
C,B,A versus C,A,B.  Go randomises map iteration order, so two runs
on equal input need not agree. -/
theorem c4_counterexample :
    generateTableMetadata "t" ["c"] tieData (fun _ => ["A", "B", "C"])
      ≠ generateTableMetadata "t" ["c"] tieData (fun _ => ["B", "A", "C"])
    ∧ (generateTableMetadata "t" ["c"] tieData (fun _ => ["A", "B", "C"])).columns.map
        (fun c => c.topValues) = [[⟨"C", 3⟩, ⟨"B", 2⟩, ⟨"A", 2⟩]]
    ∧ (generateTableMetadata "t" ["c"] tieData (fun _ => ["B", "A", "C"])).columns.map
        (fun c => c.topValues) = [[⟨"C", 3⟩, ⟨"A", 2⟩, ⟨"B", 2⟩]] := by
  have h1 : (generateTableMetadata "t" ["c"] tieData (fun _ => ["A", "B", "C"])).columns.map
      (fun c => c.topValues) = [[⟨"C", 3⟩, ⟨"B", 2⟩, ⟨"A", 2⟩]] := by
    with_unfolding_all rfl
  have h2 : (generateTableMetadata "t" ["c"] tieData (fun _ => ["B", "A", "C"])).columns.map
      (fun c => c.topValues) = [[⟨"C", 3⟩, ⟨"A", 2⟩, ⟨"B", 2⟩]] := by
    with_unfolding_all rfl
  refine ⟨?_, h1, h2⟩
  intro he
  rw [he, h2] at h1
  exact absurd h1 (by decide)

/-- C4 amended: with no insert failures, uploading the same file twice
to the same table name succeeds both times, stores exactly
data.length rows each time (the drop-then-create prevents any
accumulation), and the two TableMetadata agree on the table name, row
and column counts, version, schema summary and every per-column field
that does not come from map iteration order (name, types, flags,
counts, samples, statistics, description); topValues, enumValues and
the example strings built from them may differ in the order of
equal-count values, as the counterexample shows. -/
theorem c4_amended (tableName : String) (headers : List String) (data : List (List String))
    (o1 o2 : Nat → List String) (db : DbState) :
    ∃ db1 md1 db2 md2,
      handleUploadModel tableName headers data o1 noFailOracle db = some (db1, md1)
      ∧ handleUploadModel tableName headers data o2 noFailOracle db1 = some (db2, md2)
      ∧ rowCount db1 tableName = data.length
      ∧ rowCount db2 tableName = data.length
      ∧ md1.tableName = md2.tableName
      ∧ md1.totalRows = md2.totalRows
      ∧ md1.totalColumns = md2.totalColumns
      ∧ md1.metadataVersion = md2.metadataVersion
      ∧ md1.schemaSummary = md2.schemaSummary
      ∧ md1.columns.map coreOf = md2.columns.map coreOf := by
  have hct : ∀ db' : DbState, createTableModel tableName headers data noFailOracle db'
      = ((tableName, data.map (toSqlRow headers.length)) :: dropTable db' tableName, true) := by
    intro db'
    simp only [createTableModel]
    rw [insertBatches_noFail headers.length data.length data 0 (le_refl _)]
  have hupload : ∀ (db' : DbState) (o : Nat → List String),
      handleUploadModel tableName headers data o noFailOracle db'
        = some ((tableName, data.map (toSqlRow headers.length)) :: dropTable db' tableName,
            generateTableMetadata tableName headers data o) := by
    intro db' o
    simp only [handleUploadModel, hct db']
    rw [if_pos trivial]
  have hcols : (generateTableMetadata tableName headers data o1).columns.map coreOf
      = (generateTableMetadata tableName headers data o2).columns.map coreOf := by
    simp only [generateTableMetadata]
    rw [List.map_map, List.map_map]
    apply List.map_congr_left
    intro p hp
    simp only [Function.comp]
    exact inferAdv_core_indep data p.1 p.2 (o1 p.1) (o2 p.1)
  refine ⟨_, _, _, _, hupload db o1, hupload _ o2, ?_, ?_, rfl, rfl, rfl, rfl, ?_, hcols⟩
  · rw [rowCount_head]
    exact List.length_map data _
  · rw [rowCount_head]
    exact List.length_map data _
  · exact schemaSummary_congr _ _ hcols
